import Mathlib

/-!
Verification of the saika-lang transpiler core (tokenizer, parser, code
generator) against its natural-language specification.

The development shallowly embeds the Go sources:

* `ast`     — internal/ast (the current iteration: token kinds, positions,
              and the AST node types of the parser/codegen pair below).
* `lexer`   — internal/lexer (the current iteration, with float and
              multi-character operator support).  Messages the Go code
              prints with fmt.Printf are collected in a `diags` list.
* `parser`  — internal/parser/parser.go (the precedence-climbing parser).
* `codegen` — the current code generator (indentation-tracking variant).
* `legacy`  — the earlier iteration of the AST and code generator that the
              repository also contains (internal/ast/ast.go and
              internal/codegen/codegen.go as checked in): the variant with
              the 入口→main rewrite, the lookup-table type translation and
              the short-declaration rendering of for-loop initialisers.

Conventions of the embedding:

* Go strings are decoded rune sequences; the lexer input is a `List Char`
  and all cursor positions are rune indices.  Every concrete input used in
  the theorems keeps byte length equal to rune length wherever the Go code
  does byte-length arithmetic (numeric literals are ASCII).
* A Go `nil` node pointer is `none`; a Go slice that may be nil is a list
  (a nil slice ranges like an empty one).  Where the Go code would
  dereference a nil interface (the code generator's default case calls
  GetPosition on it and panics) the model sets a `panicked` flag instead
  and produces no further effect in that branch.
* Go `int` fields (line, column, indent level) are `Int`.
* Recursive procedures whose Go termination argument is cursor progress
  take a `fuel : Nat` argument; every theorem about a concrete input
  supplies ample fuel, and universally quantified theorems hold for every
  fuel value or quantify over `fuel + 1` as stated.
* `strconv.ParseInt` / `strconv.ParseFloat` are modelled on the fragment
  of their domain this lexer and parser can produce: optionally signed
  decimal text without underscores (plus the base prefixes of ParseInt
  with base 0); the integer models check the int64 range exactly, the
  float model checks Go's syntax (its overflow error is not modelled, and
  no claim depends on it).
-/

namespace ast

/-- Go: `type TokenType string` (internal/ast). -/
abbrev TokenType := String

def ILLEGAL : TokenType := "ILLEGAL"

def EOF : TokenType := "EOF"

def IDENT : TokenType := "IDENT"

def INT : TokenType := "INT"

def FLOAT : TokenType := "FLOAT"

def STRING : TokenType := "STRING"

def CHAR : TokenType := "CHAR"

def SAIKA_FUNC : TokenType := "SAIKA_FUNC"

def FUNCTION : TokenType := "FUNCTION"

def LET : TokenType := "LET"

def VAR : TokenType := "VAR"

def CONST : TokenType := "CONST"

def TRUE : TokenType := "TRUE"

def FALSE : TokenType := "FALSE"

def IF : TokenType := "IF"

def ELSE : TokenType := "ELSE"

def RETURN : TokenType := "RETURN"

def PACKAGE : TokenType := "PACKAGE"

def IMPORT : TokenType := "IMPORT"

def FOR : TokenType := "FOR"

def RANGE : TokenType := "RANGE"

def BREAK : TokenType := "BREAK"

def CONTINUE : TokenType := "CONTINUE"

def STRUCT : TokenType := "STRUCT"

def INTERFACE : TokenType := "INTERFACE"

def MAP : TokenType := "MAP"

def CHAN : TokenType := "CHAN"

def GO : TokenType := "GO"

def SELECT : TokenType := "SELECT"

def CASE : TokenType := "CASE"

def DEFAULT : TokenType := "DEFAULT"

def SWITCH : TokenType := "SWITCH"

def TYPE : TokenType := "TYPE"

def ASSIGN : TokenType := "="

def PLUS : TokenType := "+"

def PLUS_EQ : TokenType := "+="

def MINUS : TokenType := "-"

def MINUS_EQ : TokenType := "-="

def BANG : TokenType := "!"

def ASTERISK : TokenType := "*"

def ASTERISK_EQ : TokenType := "*="

def SLASH : TokenType := "/"

def SLASH_EQ : TokenType := "/="

def PERCENT : TokenType := "%"

def PERCENT_EQ : TokenType := "%="

def DOT : TokenType := "."

def AND : TokenType := "&"

def AND_EQ : TokenType := "&="

def OR : TokenType := "|"

def OR_EQ : TokenType := "|="

def XOR : TokenType := "^"

def XOR_EQ : TokenType := "^="

def SHL : TokenType := "<<"

def SHL_EQ : TokenType := "<<="

def SHR : TokenType := ">>"

def SHR_EQ : TokenType := ">>="

def AND_AND : TokenType := "&&"

def OR_OR : TokenType := "||"

def ARROW : TokenType := "<-"

def INC : TokenType := "++"

def DEC : TokenType := "--"

def COMMA : TokenType := ","

def SEMICOLON : TokenType := ";"

def COLON : TokenType := ":"

def LPAREN : TokenType := "("

def RPAREN : TokenType := ")"

def LBRACE : TokenType := "\x7b"

def RBRACE : TokenType := "\x7d"

def LBRACKET : TokenType := "["

def RBRACKET : TokenType := "]"

def EQ : TokenType := "=="

def NOT_EQ : TokenType := "!="

def LT : TokenType := "<"

def LT_EQ : TokenType := "<="

def GT : TokenType := ">"

def GT_EQ : TokenType := ">="

/-- Go: `ast.Position` — line, column and file of a node, for diagnostics. -/
structure Position where
  line : Int
  column : Int
  file : String
deriving Repr, DecidableEq

/-- Go: `ast.Token` (field `Type` is `typ` here: `Type` is reserved in Lean). -/
structure Token where
  typ : TokenType
  literal : String
  line : Int
  column : Int
deriving Repr, DecidableEq

/-- Go: the `ast.Keywords` map of the current iteration, as an association
list in the textual order of the source. -/
def Keywords : List (String × TokenType) :=
  [("func", FUNCTION), ("數", SAIKA_FUNC), ("let", LET), ("var", VAR),
   ("const", CONST), ("true", TRUE), ("false", FALSE), ("if", IF),
   ("else", ELSE), ("return", RETURN), ("package", PACKAGE),
   ("import", IMPORT), ("for", FOR), ("range", RANGE), ("break", BREAK),
   ("continue", CONTINUE), ("struct", STRUCT), ("interface", INTERFACE),
   ("map", MAP), ("chan", CHAN), ("go", GO), ("select", SELECT),
   ("case", CASE), ("default", DEFAULT), ("switch", SWITCH), ("type", TYPE)]

/-- Go: `ast.Identifier` (token, value, position).  Used both as an
expression (wrapped by `Expression.identifier`) and in the name slots of
statements, exactly where the Go code stores an `*ast.Identifier`. -/
structure Identifier where
  token : Token
  value : String
  position : Position
deriving Repr, DecidableEq

mutual

/-- Go: the expression nodes of internal/ast (current iteration).  A field
that holds a possibly-nil `ast.Expression` in Go is an `Option`; `nil`
slices are lists.  `FloatLiteral.Value float64` is carried as its source
literal (`lit`): no theorem depends on the parsed double. -/
inductive Expression where
  | identifier (id : Identifier)
  | integerLiteral (token : Token) (value : Int) (position : Position)
  | floatLiteral (token : Token) (lit : String) (position : Position)
  | stringLiteral (token : Token) (value : String) (position : Position)
  | booleanLiteral (token : Token) (value : Bool) (position : Position)
  | arrayLiteral (token : Token) (elements : List (Option Expression)) (position : Position)
  | hashLiteral (token : Token) (pairs : List (Option Expression × Option Expression)) (position : Position)
  | unaryExpression (token : Token) (operator : String) (right : Option Expression) (position : Position)
  | binaryExpression (token : Token) (left : Option Expression) (operator : String) (right : Option Expression) (position : Position)
  | assignmentExpression (token : Token) (left : Option Expression) (operator : String) (right : Option Expression) (position : Position)
  | memberExpression (token : Token) (object : Option Expression) (property : Identifier) (position : Position)
  | indexExpression (token : Token) (left : Option Expression) (index : Option Expression) (position : Position)
  | callExpression (token : Token) (function : Option Expression) (arguments : List (Option Expression)) (position : Position)

/-- Go: `ast.TypeExpression` implementers: IdentifierType, ArrayType,
MapType, and StructLiteral used inline as a type. -/
inductive TypeExpression where
  | identifierType (token : Token) (name : String) (position : Position)
  | arrayType (token : Token) (elementType : TypeExpression) (position : Position)
  | mapType (token : Token) (keyType : TypeExpression) (valueType : TypeExpression) (position : Position)
  | structType (s : StructData)

/-- Go: the payload of `ast.StructLiteral`.  Go stores the fields in an
unordered `map[string]ast.TypeExpression`; the model keeps them as an
association list in insertion order (the spec itself notes the map order
is unspecified; no theorem depends on field order). -/
inductive StructData where
  | mk (token : Token) (name : Option Identifier) (fields : List (String × TypeExpression)) (position : Position)

/-- Go: `ast.FunctionParameter`. -/
inductive FunctionParameter where
  | mk (name : Identifier) (typ : Option TypeExpression) (position : Position)

/-- Go: the statement nodes of internal/ast (current iteration).
`ast.BlockStatement` also implements Statement in Go but never occurs in
statement position (the parser maps `{` in statement position to a hash
literal), so the model keeps it a separate type. -/
inductive Statement where
  | packageStatement (token : Token) (name : String) (position : Position)
  | importStatement (token : Token) (path : String) (aliasName : String) (position : Position)
  | functionStatement (token : Token) (name : Identifier) (parameters : List FunctionParameter) (returnType : Option TypeExpression) (body : BlockStatement) (position : Position)
  | variableStatement (token : Token) (name : Identifier) (typ : Option TypeExpression) (value : Option Expression) (const : Bool) (position : Position)
  | returnStatement (token : Token) (value : Option Expression) (position : Position)
  | ifStatement (token : Token) (condition : Option Expression) (consequence : BlockStatement) (alternative : Option BlockStatement) (position : Position)
  | forStatement (token : Token) (init : Option Statement) (condition : Option Expression) (post : Option Statement) (body : BlockStatement) (position : Position)
  | rangeStatement (token : Token) (key : Option Identifier) (value : Option Identifier) (collection : Option Expression) (body : BlockStatement) (position : Position)
  | expressionStatement (token : Token) (expression : Option Expression) (position : Position)
  | structStatement (s : StructData)

/-- Go: `ast.BlockStatement`. -/
inductive BlockStatement where
  | mk (token : Token) (statements : List Statement) (position : Position)

end

/-- Go: `ast.Program` — the root node. -/
structure Program where
  statements : List Statement
  position : Position

def BlockStatement.statements : BlockStatement → List Statement
  | .mk _ s _ => s

def BlockStatement.token : BlockStatement → Token
  | .mk t _ _ => t

end ast

namespace strconv

/-- The numeric value of a run of ASCII decimal digits; `none` when the
run is empty or holds a non-digit.  (Helper for the strconv models.) -/
def digitsVal : List Char → Option Nat
  | [] => none
  | cs => go cs 0
where
  go : List Char → Nat → Option Nat
    | [], acc => some acc
    | c :: rest, acc =>
      if c.isDigit then go rest (acc * 10 + (c.toNat - 48)) else none

/-- Digits of the given base (2, 8, 10 or 16), `none` on empty or invalid. -/
def digitsValBase (base : Nat) : List Char → Option Nat
  | [] => none
  | cs => go cs 0
where
  digit (c : Char) : Option Nat :=
    if c.isDigit then some (c.toNat - 48)
    else if 'a' ≤ c ∧ c ≤ 'f' then some (c.toNat - 87)
    else if 'A' ≤ c ∧ c ≤ 'F' then some (c.toNat - 55)
    else none
  go : List Char → Nat → Option Nat
    | [], acc => some acc
    | c :: rest, acc =>
      match digit c with
      | some d => if d < base then go rest (acc * base + d) else none
      | none => none

/-- Model of Go `strconv.ParseInt(s, 10, 64)` on the text this lexer can
produce (no underscores): optional sign, decimal digits, int64 range. -/
def parseInt10 (s : String) : Option Int :=
  let cs := s.toList
  let signed : Bool × List Char :=
    match cs with
    | '+' :: r => (false, r)
    | '-' :: r => (true, r)
    | r => (false, r)
  match digitsVal signed.2 with
  | none => none
  | some v =>
    let i : Int := if signed.1 then -(v : Int) else (v : Int)
    if -(2 ^ 63) ≤ i ∧ i ≤ 2 ^ 63 - 1 then some i else none

/-- Model of Go `strconv.ParseInt(s, 0, 64)` on the text this parser can
receive (no underscores): optional sign, then a 0x/0o/0b prefix, a
leading-zero octal, or decimal digits; int64 range. -/
def parseIntBase0 (s : String) : Option Int :=
  let cs := s.toList
  let signed : Bool × List Char :=
    match cs with
    | '+' :: r => (false, r)
    | '-' :: r => (true, r)
    | r => (false, r)
  let mag : Option Nat :=
    match signed.2 with
    | '0' :: 'x' :: r => digitsValBase 16 r
    | '0' :: 'X' :: r => digitsValBase 16 r
    | '0' :: 'o' :: r => digitsValBase 8 r
    | '0' :: 'O' :: r => digitsValBase 8 r
    | '0' :: 'b' :: r => digitsValBase 2 r
    | '0' :: 'B' :: r => digitsValBase 2 r
    | '0' :: r => if r.isEmpty then some 0 else digitsValBase 8 r
    | r => digitsVal r
  match mag with
  | none => none
  | some v =>
    let i : Int := if signed.1 then -(v : Int) else (v : Int)
    if -(2 ^ 63) ≤ i ∧ i ≤ 2 ^ 63 - 1 then some i else none

/-- Whether Go `strconv.ParseFloat(s, 64)` succeeds, modelled as Go's
decimal float syntax: optional sign, digits with an optional fractional
part (at least one digit on one side of the dot), an optional exponent
with mandatory digits.  Go's range error (beyond MaxFloat64) and its
inf/nan/hex spellings are not modelled; no theorem depends on them. -/
def parseFloatOk (s : String) : Bool :=
  let cs := s.toList
  let afterSign :=
    match cs with
    | '+' :: r => r
    | '-' :: r => r
    | r => r
  let intPart := afterSign.takeWhile Char.isDigit
  let rest1 := afterSign.dropWhile Char.isDigit
  let stage2 :=
    match rest1 with
    | '.' :: r =>
      let frac := r.takeWhile Char.isDigit
      if intPart.isEmpty ∧ frac.isEmpty then none
      else some (r.dropWhile Char.isDigit)
    | r => if intPart.isEmpty then none else some r
  match stage2 with
  | none => false
  | some rest2 =>
    match rest2 with
    | [] => true
    | 'e' :: r => expOk r
    | 'E' :: r => expOk r
    | _ => false
where
  expOk (r : List Char) : Bool :=
    let r' :=
      match r with
      | '+' :: t => t
      | '-' :: t => t
      | t => t
    (!r'.isEmpty) && r'.all Char.isDigit && ((r'.dropWhile Char.isDigit).isEmpty)

end strconv

namespace lexer

/-- Go: `lexer.Lexer` (current iteration).  `input` is the decoded rune
sequence, `position`/`readPosition` are rune indices, `ch` is the rune
under examination (0 at end of input, as in Go).  `diags` collects the
messages the Go code prints with fmt.Printf (unknown escapes, unterminated
literals, unclosed comments). -/
structure Lexer where
  input : List Char
  position : Nat
  readPosition : Nat
  ch : Char
  line : Int
  column : Int
  fileName : String
  diags : List String
deriving Repr

/-- Go `string(ch)` of one rune. -/
def charStr (c : Char) : String := String.mk [c]

/-- Go `l.input[a:b]` as the rune slice between the two indices. -/
def sliceStr (input : List Char) (a b : Nat) : String :=
  String.mk ((input.drop a).take (b - a))

/-- Model of `unicode.IsLetter` on the character set this development
exercises: ASCII letters and CJK unified ideographs (the source keywords
數/入口/整数 and friends).  Other Unicode letter categories are outside
every input considered here. -/
def isUnicodeLetter (c : Char) : Bool :=
  c.isAlpha || (0x4E00 ≤ c.toNat && c.toNat ≤ 0x9FFF)

/-- Go: `lexer.isLetter`. -/
def isLetter (c : Char) : Bool :=
  isUnicodeLetter c || c == '_'

/-- Model of `unicode.IsDigit` on ASCII (no input here holds a non-ASCII
digit). Go: `lexer.isDigit`. -/
def isDigit (c : Char) : Bool := c.isDigit

/-- Model of `unicode.IsSpace`: Go's white space set. -/
def isSpace (c : Char) : Bool :=
  c == ' ' || c == '\t' || c == '\n' || c.toNat == 11 || c.toNat == 12 ||
  c == '\r' || c.toNat == 0x85 || c.toNat == 0xA0

/-- The rune 0 that Go uses as its end-of-input sentinel. -/
def nul : Char := Char.ofNat 0

/-- Go: `Lexer.readChar`.  Note that at end of input only `ch` changes:
`position` and `readPosition` stay put (the Go code updates them inside
the `else` branch only), and the line/column bookkeeping still runs. -/
def readChar (l : Lexer) : Lexer :=
  let l :=
    if l.readPosition ≥ l.input.length then
      { l with ch := nul }
    else
      { l with ch := l.input.getD l.readPosition nul,
               position := l.readPosition,
               readPosition := l.readPosition + 1 }
  if l.ch == '\n' then
    { l with line := l.line + 1, column := 0 }
  else
    { l with column := l.column + 1 }

/-- Go: `lexer.NewWithFilename`. -/
def NewWithFilename (input : String) (fileName : String) : Lexer :=
  readChar
    { input := input.toList, position := 0, readPosition := 0, ch := nul,
      line := 1, column := 0, fileName := fileName, diags := [] }

/-- Go: `lexer.New`. -/
def New (input : String) : Lexer := NewWithFilename input ""

/-- Go: `Lexer.peekChar`. -/
def peekChar (l : Lexer) : Char :=
  if l.readPosition ≥ l.input.length then nul
  else l.input.getD l.readPosition nul

/-- Go: `Lexer.peekCharN` — the n-th rune after the read position (the Go
loop over rune sizes collapses to an index under the rune-list view). -/
def peekCharN (l : Lexer) (n : Nat) : Char :=
  if n = 0 then nul
  else if l.readPosition + (n - 1) < l.input.length then
    l.input.getD (l.readPosition + (n - 1)) nul
  else nul

/-- Go: `Lexer.skipWhitespace` (fuel bounds the loop). -/
def skipWhitespace (fuel : Nat) (l : Lexer) : Lexer :=
  match fuel with
  | 0 => l
  | f + 1 => if isSpace l.ch then skipWhitespace f (readChar l) else l

/-- Go: `Lexer.skipSingleLineComment`. -/
def skipSingleLineComment (fuel : Nat) (l : Lexer) : Lexer :=
  loop fuel (readChar (readChar l))
where
  loop : Nat → Lexer → Lexer
    | 0, l => l
    | f + 1, l =>
      if l.ch != '\n' && l.ch != nul then loop f (readChar l) else l

/-- Go: `Lexer.skipMultiLineComment` — an unclosed comment is reported
(printed in Go, recorded in `diags` here) and scanning stops at EOF. -/
def skipMultiLineComment (fuel : Nat) (l : Lexer) : Lexer :=
  loop fuel (readChar (readChar l))
where
  loop : Nat → Lexer → Lexer
    | 0, l => l
    | f + 1, l =>
      if l.ch == nul then
        { l with diags := l.diags ++
            ["Error at line " ++ toString l.line ++ ", column " ++
             toString l.column ++ ": unclosed comment"] }
      else if l.ch == '*' && peekChar l == '/' then
        readChar (readChar l)
      else
        loop f (readChar l)

/-- Go: `Lexer.readIdentifier`. -/
def readIdentifier (fuel : Nat) (l : Lexer) : String × Lexer :=
  let start := l.position
  let l := loop fuel start l
  (sliceStr l.input start l.position, l)

where
  loop (fuel : Nat) (start : Nat) (l : Lexer) : Lexer :=
    match fuel with
    | 0 => l
    | f + 1 =>
      if isLetter l.ch || (decide (l.position ≠ start) && isDigit l.ch) then
        loop f start (readChar l)
      else l

/-- Go: `Lexer.readNumber` — scans digits, an optional fraction, an
optional exponent, then validates the literal with strconv; a failing
validation yields an ILLEGAL token carrying the literal.  The token column
is `l.column` minus the literal length (its byte length in Go; all numeric
literals are ASCII, so rune length here). -/
def readNumber (fuel : Nat) (l : Lexer) : ast.Token × Lexer :=
  let start := l.position
  let l := digitsLoop fuel l
  match (if l.ch == '.' && isDigit (peekChar l) then
           (true, digitsLoop fuel (readChar l))
         else (false, l) : Bool × Lexer) with
  | (isFloat, l) =>
  match (if (l.ch == 'e' || l.ch == 'E') &&
            (isDigit (peekChar l) ||
             ((peekChar l == '+' || peekChar l == '-') && isDigit (peekCharN l 2))) then
           let l := readChar l
           let l := if l.ch == '+' || l.ch == '-' then readChar l else l
           (true, digitsLoop fuel l)
         else (isFloat, l) : Bool × Lexer) with
  | (isFloat, l) =>
  let literal := sliceStr l.input start l.position
  let col := l.column - (literal.length : Int)
  if isFloat then
    if (strconv.parseFloatOk literal) then
      ({ typ := ast.FLOAT, literal := literal, line := l.line, column := col }, l)
    else
      ({ typ := ast.ILLEGAL, literal := literal, line := l.line, column := col }, l)
  else
    match strconv.parseInt10 literal with
    | some _ =>
      ({ typ := ast.INT, literal := literal, line := l.line, column := col }, l)
    | none =>
      ({ typ := ast.ILLEGAL, literal := literal, line := l.line, column := col }, l)
where
  digitsLoop : Nat → Lexer → Lexer
    | 0, l => l
    | f + 1, l => if isDigit l.ch then digitsLoop f (readChar l) else l

/-- Go: `Lexer.readString`.  The loop breaks at a closing quote or at the
EOF sentinel *before* the explicit unterminated-string check inside the
body runs; the returned slice ends at `l.position`, which at end of input
still names the index of the last rune read (see `readChar`). -/
def readString (fuel : Nat) (l : Lexer) : String × Lexer :=
  let startLine := l.line
  let startColumn := l.column
  let l := readChar l
  let start := l.position
  let l := loop fuel startLine startColumn l
  (sliceStr l.input start l.position, l)
where
  loop (fuel : Nat) (startLine startColumn : Int) (l : Lexer) : Lexer :=
    match fuel with
    | 0 => l
    | f + 1 =>
      if l.ch == '"' || l.ch == nul then l
      else
        let l :=
          if l.ch == '\\' then
            let l := readChar l
            if l.ch == 'n' || l.ch == 'r' || l.ch == 't' || l.ch == '\\' ||
               l.ch == '"' || l.ch == '\'' then l
            else
              { l with diags := l.diags ++
                  ["Warning at line " ++ toString l.line ++ ", column " ++
                   toString l.column ++ ": unknown escape sequence \\" ++
                   charStr l.ch] }
          else l
        if l.ch == nul then
          { l with diags := l.diags ++
              ["Error at line " ++ toString startLine ++ ", column " ++
               toString startColumn ++ ": unterminated string literal"] }
        else loop f startLine startColumn (readChar l)

/-- Go: `Lexer.readCharLiteral`. -/
def readCharLiteral (l : Lexer) : String × Lexer :=
  let startLine := l.line
  let startColumn := l.column
  let l := readChar l
  let start := l.position
  let l :=
    if l.ch == '\\' then
      let l := readChar l
      let l :=
        if l.ch == 'n' || l.ch == 'r' || l.ch == 't' || l.ch == '\\' ||
           l.ch == '"' || l.ch == '\'' then l
        else
          { l with diags := l.diags ++
              ["Warning at line " ++ toString l.line ++ ", column " ++
               toString l.column ++ ": unknown escape sequence \\" ++
               charStr l.ch] }
      readChar l
    else if l.ch != nul && l.ch != '\'' then readChar l
    else l
  let l :=
    if l.ch != '\'' then
      { l with diags := l.diags ++
          ["Error at line " ++ toString startLine ++ ", column " ++
           toString startColumn ++ ": unterminated character literal"] }
    else l
  (sliceStr l.input start l.position, l)

/-- Go: `lexer.newToken` — note the whole token is replaced, so the line
and column recorded before the switch are lost (they stay Go zero values). -/
def newToken (t : ast.TokenType) (c : Char) : ast.Token :=
  { typ := t, literal := charStr c, line := 0, column := 0 }

/-- Go: `lexer.lookupIdent`. -/
def lookupIdent (ident : String) : ast.TokenType :=
  match (ast.Keywords.find? (fun kv => kv.1 == ident)) with
  | some kv => kv.2
  | none => ast.IDENT

/-- A two-character operator token (Go writes these as struct literals, so
their line and column are zero values too). -/
def opToken (t : ast.TokenType) (a b : Char) : ast.Token :=
  { typ := t, literal := charStr a ++ charStr b, line := 0, column := 0 }

/-- Go: `Lexer.NextToken` (current iteration).  The fuel feeds the inner
loops and the recursion that restarts after a comment. -/
def NextToken (fuel : Nat) (l : Lexer) : ast.Token × Lexer :=
  match fuel with
  | 0 => ({ typ := ast.EOF, literal := "", line := l.line, column := l.column }, l)
  | f + 1 =>
    let l := skipWhitespace (l.input.length + 1) l
    let tl := l.line
    let tc := l.column
    if l.ch == '=' then
      if peekChar l == '=' then
        let c := l.ch
        let l := readChar l
        (opToken ast.EQ c l.ch, readChar l)
      else (newToken ast.ASSIGN l.ch, readChar l)
    else if l.ch == '+' then
      if peekChar l == '=' then
        let c := l.ch
        let l := readChar l
        (opToken ast.PLUS_EQ c l.ch, readChar l)
      else if peekChar l == '+' then
        let c := l.ch
        let l := readChar l
        (opToken ast.INC c l.ch, readChar l)
      else (newToken ast.PLUS l.ch, readChar l)
    else if l.ch == '-' then
      if peekChar l == '=' then
        let c := l.ch
        let l := readChar l
        (opToken ast.MINUS_EQ c l.ch, readChar l)
      else if peekChar l == '-' then
        let c := l.ch
        let l := readChar l
        (opToken ast.DEC c l.ch, readChar l)
      else if peekChar l == '>' then
        let c := l.ch
        let l := readChar l
        (opToken ast.ARROW c l.ch, readChar l)
      else (newToken ast.MINUS l.ch, readChar l)
    else if l.ch == '!' then
      if peekChar l == '=' then
        let c := l.ch
        let l := readChar l
        (opToken ast.NOT_EQ c l.ch, readChar l)
      else (newToken ast.BANG l.ch, readChar l)
    else if l.ch == '*' then
      if peekChar l == '=' then
        let c := l.ch
        let l := readChar l
        (opToken ast.ASTERISK_EQ c l.ch, readChar l)
      else (newToken ast.ASTERISK l.ch, readChar l)
    else if l.ch == '/' then
      if peekChar l == '/' then
        NextToken f (skipSingleLineComment (l.input.length + 1) l)
      else if peekChar l == '*' then
        NextToken f (skipMultiLineComment (l.input.length + 1) l)
      else if peekChar l == '=' then
        let c := l.ch
        let l := readChar l
        (opToken ast.SLASH_EQ c l.ch, readChar l)
      else (newToken ast.SLASH l.ch, readChar l)
    else if l.ch == '%' then
      if peekChar l == '=' then
        let c := l.ch
        let l := readChar l
        (opToken ast.PERCENT_EQ c l.ch, readChar l)
      else (newToken ast.PERCENT l.ch, readChar l)
    else if l.ch == '&' then
      if peekChar l == '=' then
        let c := l.ch
        let l := readChar l
        (opToken ast.AND_EQ c l.ch, readChar l)
      else if peekChar l == '&' then
        let c := l.ch
        let l := readChar l
        (opToken ast.AND_AND c l.ch, readChar l)
      else (newToken ast.AND l.ch, readChar l)
    else if l.ch == '|' then
      if peekChar l == '=' then
        let c := l.ch
        let l := readChar l
        (opToken ast.OR_EQ c l.ch, readChar l)
      else if peekChar l == '|' then
        let c := l.ch
        let l := readChar l
        (opToken ast.OR_OR c l.ch, readChar l)
      else (newToken ast.OR l.ch, readChar l)
    else if l.ch == '^' then
      if peekChar l == '=' then
        let c := l.ch
        let l := readChar l
        (opToken ast.XOR_EQ c l.ch, readChar l)
      else (newToken ast.XOR l.ch, readChar l)
    else if l.ch == '<' then
      if peekChar l == '=' then
        let c := l.ch
        let l := readChar l
        (opToken ast.LT_EQ c l.ch, readChar l)
      else if peekChar l == '<' then
        let c := l.ch
        let l := readChar l
        if peekChar l == '=' then
          let lit := charStr c ++ charStr l.ch
          let l := readChar l
          ({ typ := ast.SHL_EQ, literal := lit ++ charStr l.ch, line := 0, column := 0 },
           readChar l)
        else (opToken ast.SHL c l.ch, readChar l)
      else if peekChar l == '-' then
        let c := l.ch
        let l := readChar l
        (opToken ast.ARROW c l.ch, readChar l)
      else (newToken ast.LT l.ch, readChar l)
    else if l.ch == '>' then
      if peekChar l == '=' then
        let c := l.ch
        let l := readChar l
        (opToken ast.GT_EQ c l.ch, readChar l)
      else if peekChar l == '>' then
        let c := l.ch
        let l := readChar l
        if peekChar l == '=' then
          let lit := charStr c ++ charStr l.ch
          let l := readChar l
          ({ typ := ast.SHR_EQ, literal := lit ++ charStr l.ch, line := 0, column := 0 },
           readChar l)
        else (opToken ast.SHR c l.ch, readChar l)
      else (newToken ast.GT l.ch, readChar l)
    else if l.ch == '.' then (newToken ast.DOT l.ch, readChar l)
    else if l.ch == ',' then (newToken ast.COMMA l.ch, readChar l)
    else if l.ch == ';' then (newToken ast.SEMICOLON l.ch, readChar l)
    else if l.ch == ':' then (newToken ast.COLON l.ch, readChar l)
    else if l.ch == '(' then (newToken ast.LPAREN l.ch, readChar l)
    else if l.ch == ')' then (newToken ast.RPAREN l.ch, readChar l)
    else if l.ch == '{' then (newToken ast.LBRACE l.ch, readChar l)
    else if l.ch == '}' then (newToken ast.RBRACE l.ch, readChar l)
    else if l.ch == '[' then (newToken ast.LBRACKET l.ch, readChar l)
    else if l.ch == ']' then (newToken ast.RBRACKET l.ch, readChar l)
    else if l.ch == '"' then
      match readString (l.input.length + 1) l with
      | (lit, l) =>
        ({ typ := ast.STRING, literal := lit, line := tl, column := tc },
         readChar l)
    else if l.ch == '\'' then
      match readCharLiteral l with
      | (lit, l) =>
        ({ typ := ast.CHAR, literal := lit, line := tl, column := tc },
         readChar l)
    else if l.ch == nul then
      ({ typ := ast.EOF, literal := "", line := tl, column := tc }, readChar l)
    else if isLetter l.ch then
      match readIdentifier (l.input.length + 1) l with
      | (lit, l) =>
        ({ typ := lookupIdent lit, literal := lit, line := tl, column := tc }, l)
    else if isDigit l.ch then
      readNumber (l.input.length + 1) l
    else
      (newToken ast.ILLEGAL l.ch, readChar l)

/-- Go: `Lexer.GetFileName`. -/
def GetFileName (l : Lexer) : String := l.fileName

/-- The token sequence a lexer yields, up to and including its first
end-of-file token. -/
def lexAll (fuel : Nat) (l : Lexer) : List ast.Token × Lexer :=
  match fuel with
  | 0 => ([], l)
  | f + 1 =>
    match NextToken (l.input.length + 8) l with
    | (t, l) =>
      if t.typ == ast.EOF then ([t], l)
      else
        match lexAll f l with
        | (ts, l) => (t :: ts, l)

/-- The tokens of a source string (literal and kind view for theorems). -/
def tokenize (src : String) : List ast.Token :=
  (lexAll (src.length + 8) (New src)).1

end lexer

namespace parser

/-- Go: `parser.Parser`.  The Go parser owns a lexer and pulls tokens one
at a time; the model feeds it the lexer's token sequence (`toks`), and
once that is exhausted keeps yielding end-of-file tokens, as the Go lexer
does (their line/column, which no theorem observes, are zero here). -/
structure Parser where
  toks : List ast.Token
  fileName : String
  curToken : ast.Token
  peekToken : ast.Token
  errors : List String
deriving Repr

/-- The zero `ast.Token` value the two lookahead slots start from in Go. -/
def zeroToken : ast.Token := { typ := "", literal := "", line := 0, column := 0 }

/-- An end-of-file token for pulls past the end of the token sequence. -/
def eofToken : ast.Token := { typ := ast.EOF, literal := "", line := 0, column := 0 }

/-- Go: `Parser.nextToken`. -/
def nextToken (p : Parser) : Parser :=
  match p.toks with
  | [] => { p with curToken := p.peekToken, peekToken := eofToken }
  | t :: rest => { p with curToken := p.peekToken, peekToken := t, toks := rest }

/-- Go: `parser.New` — reads two tokens so both lookahead slots are set. -/
def New (toks : List ast.Token) (fileName : String) : Parser :=
  nextToken (nextToken
    { toks := toks, fileName := fileName, curToken := zeroToken,
      peekToken := zeroToken, errors := [] })

def LOWEST : Int := 1

def ASSIGN : Int := 2

def LOGICAL_OR : Int := 3

def LOGICAL_AND : Int := 4

def EQUALS : Int := 5

def LESSGREATER : Int := 6

def BIT_OR : Int := 7

def BIT_XOR : Int := 8

def BIT_AND : Int := 9

def SHIFT : Int := 10

def SUM : Int := 11

def PRODUCT : Int := 12

def PREFIX : Int := 13

def POSTFIX : Int := 14

def CALL : Int := 15

def INDEX : Int := 16

def MEMBER : Int := 17

/-- Go: the `precedences` map, as an association list. -/
def precedences : List (ast.TokenType × Int) :=
  [(ast.ASSIGN, ASSIGN), (ast.PLUS_EQ, ASSIGN), (ast.MINUS_EQ, ASSIGN),
   (ast.ASTERISK_EQ, ASSIGN), (ast.SLASH_EQ, ASSIGN), (ast.PERCENT_EQ, ASSIGN),
   (ast.AND_EQ, ASSIGN), (ast.OR_EQ, ASSIGN), (ast.XOR_EQ, ASSIGN),
   (ast.SHL_EQ, ASSIGN), (ast.SHR_EQ, ASSIGN),
   (ast.OR_OR, LOGICAL_OR), (ast.AND_AND, LOGICAL_AND),
   (ast.EQ, EQUALS), (ast.NOT_EQ, EQUALS),
   (ast.LT, LESSGREATER), (ast.GT, LESSGREATER),
   (ast.LT_EQ, LESSGREATER), (ast.GT_EQ, LESSGREATER),
   (ast.OR, BIT_OR), (ast.XOR, BIT_XOR), (ast.AND, BIT_AND),
   (ast.SHL, SHIFT), (ast.SHR, SHIFT),
   (ast.PLUS, SUM), (ast.MINUS, SUM),
   (ast.ASTERISK, PRODUCT), (ast.SLASH, PRODUCT), (ast.PERCENT, PRODUCT),
   (ast.INC, POSTFIX), (ast.DEC, POSTFIX),
   (ast.LPAREN, CALL), (ast.LBRACKET, INDEX), (ast.DOT, MEMBER)]

/-- Precedence of a token kind, `LOWEST` when absent from the table. -/
def precedenceOf (t : ast.TokenType) : Int :=
  match precedences.find? (fun kv => kv.1 == t) with
  | some kv => kv.2
  | none => LOWEST

/-- Go: `Parser.peekPrecedence`. -/
def peekPrecedence (p : Parser) : Int := precedenceOf p.peekToken.typ

/-- Go: `Parser.curPrecedence`. -/
def curPrecedence (p : Parser) : Int := precedenceOf p.curToken.typ

/-- Go: `Parser.curTokenIs`. -/
def curTokenIs (p : Parser) (t : ast.TokenType) : Bool := p.curToken.typ == t

/-- Go: `Parser.peekTokenIs`. -/
def peekTokenIs (p : Parser) (t : ast.TokenType) : Bool := p.peekToken.typ == t

/-- The message of Go `Parser.peekError`: built from the peek token's
recorded line and column and the expected and found kinds. -/
def peekErrorMsg (t : ast.TokenType) (peek : ast.Token) : String :=
  "Line " ++ toString peek.line ++ ":" ++ toString peek.column ++
  " expected next token to be " ++ t ++ ", got " ++ peek.typ ++ " instead"

/-- Go: `Parser.peekError`. -/
def peekError (t : ast.TokenType) (p : Parser) : Parser :=
  { p with errors := p.errors ++ [peekErrorMsg t p.peekToken] }

/-- Go: `Parser.expectPeek` — advance on the expected kind, record a
diagnostic and stay put otherwise. -/
def expectPeek (t : ast.TokenType) (p : Parser) : Bool × Parser :=
  if peekTokenIs p t then (true, nextToken p)
  else (false, peekError t p)

/-- Go: `Parser.noPrefixParseFnError`. -/
def noPrefixParseFnError (p : Parser) : Parser :=
  { p with errors := p.errors ++
      ["no prefix parse function for " ++ p.curToken.typ ++ " found"] }

/-- Go: `Parser.getPosition`. -/
def getPosition (p : Parser) : ast.Position :=
  { line := p.curToken.line, column := p.curToken.column, file := p.fileName }

/-- The identifier node built from the current token (the Go code inlines
this construction at each use site). -/
def curIdent (p : Parser) : ast.Identifier :=
  { token := p.curToken, value := p.curToken.literal, position := getPosition p }

/-- Go: `Parser.parseIdentifier`. -/
def parseIdentifier (p : Parser) : Option ast.Expression × Parser :=
  (some (.identifier (curIdent p)), p)

/-- Go: `Parser.parseIntegerLiteral` (strconv.ParseInt with base 0). -/
def parseIntegerLiteral (p : Parser) : Option ast.Expression × Parser :=
  let tok := p.curToken
  let pos := getPosition p
  match strconv.parseIntBase0 tok.literal with
  | some v => (some (.integerLiteral tok v pos), p)
  | none =>
    (none, { p with errors := p.errors ++
        ["could not parse \"" ++ tok.literal ++ "\" as integer"] })

/-- Go: `Parser.parseFloatLiteral` (strconv.ParseFloat; the model keeps
the literal text in the node). -/
def parseFloatLiteral (p : Parser) : Option ast.Expression × Parser :=
  let tok := p.curToken
  let pos := getPosition p
  if strconv.parseFloatOk tok.literal then
    (some (.floatLiteral tok tok.literal pos), p)
  else
    (none, { p with errors := p.errors ++
        ["could not parse \"" ++ tok.literal ++ "\" as float"] })

/-- Go: `Parser.parseStringLiteral`. -/
def parseStringLiteral (p : Parser) : Option ast.Expression × Parser :=
  (some (.stringLiteral p.curToken p.curToken.literal (getPosition p)), p)

/-- Go: `Parser.parseCharLiteral` — unimplemented in the source: records a
diagnostic and yields no node. -/
def parseCharLiteral (p : Parser) : Option ast.Expression × Parser :=
  (none, { p with errors := p.errors ++
      ["Character literals not yet implemented at " ++
       toString p.curToken.line ++ ":" ++ toString p.curToken.column] })

/-- Go: `Parser.parseBooleanLiteral`. -/
def parseBooleanLiteral (p : Parser) : Option ast.Expression × Parser :=
  (some (.booleanLiteral p.curToken (curTokenIs p ast.TRUE) (getPosition p)), p)

/-- Go: `Parser.parseMemberExpression`. -/
def parseMemberExpression (left : Option ast.Expression) (p : Parser) :
    Option ast.Expression × Parser :=
  let tok := p.curToken
  let pos := getPosition p
  let p := nextToken p
  if !curTokenIs p ast.IDENT then
    (none, { p with errors := p.errors ++
        ["expected identifier after dot, got " ++ p.curToken.typ] })
  else
    (some (.memberExpression tok left (curIdent p) pos), p)

/-- Go: `Parser.parsePostfixExpression` — the operand sits on the left. -/
def parsePostfixExpression (left : Option ast.Expression) (p : Parser) :
    Option ast.Expression × Parser :=
  (some (.unaryExpression p.curToken p.curToken.literal left (getPosition p)), p)

/-- Go: `Parser.parseTypeStatement` — unimplemented in the source. -/
def parseTypeStatement (p : Parser) : Option ast.Statement × Parser :=
  (none, { p with errors := p.errors ++
      ["Type declarations not yet implemented at " ++
       toString p.curToken.line ++ ":" ++ toString p.curToken.column] })

/-- The token kinds with a registered prefix parse function (the
`registerPrefix` calls of `parser.New`). -/
def hasPrefixFn (t : ast.TokenType) : Bool :=
  t == ast.IDENT || t == ast.INT || t == ast.FLOAT || t == ast.STRING ||
  t == ast.CHAR || t == ast.TRUE || t == ast.FALSE || t == ast.LPAREN ||
  t == ast.LBRACKET || t == ast.LBRACE || t == ast.BANG || t == ast.MINUS ||
  t == ast.PLUS

/-- The token kinds registered to `parseInfixExpression`. -/
def isOrdinaryInfix (t : ast.TokenType) : Bool :=
  t == ast.PLUS || t == ast.MINUS || t == ast.ASTERISK || t == ast.SLASH ||
  t == ast.PERCENT || t == ast.EQ || t == ast.NOT_EQ || t == ast.LT ||
  t == ast.GT || t == ast.LT_EQ || t == ast.GT_EQ || t == ast.AND ||
  t == ast.OR || t == ast.XOR || t == ast.SHL || t == ast.SHR ||
  t == ast.AND_AND || t == ast.OR_OR

/-- The token kinds registered to `parseAssignmentExpression`. -/
def isAssignInfix (t : ast.TokenType) : Bool :=
  t == ast.ASSIGN || t == ast.PLUS_EQ || t == ast.MINUS_EQ ||
  t == ast.ASTERISK_EQ || t == ast.SLASH_EQ || t == ast.PERCENT_EQ ||
  t == ast.AND_EQ || t == ast.OR_EQ || t == ast.XOR_EQ || t == ast.SHL_EQ ||
  t == ast.SHR_EQ

/-- Whether any infix parse function is registered for the kind. -/
def hasInfixFn (t : ast.TokenType) : Bool :=
  isOrdinaryInfix t || isAssignInfix t || t == ast.LPAREN ||
  t == ast.LBRACKET || t == ast.DOT || t == ast.INC || t == ast.DEC

mutual

/-- Go: `Parser.ParseProgram`. -/
def ParseProgram (fuel : Nat) (p : Parser) : ast.Program × Parser :=
  match fuel with
  | 0 => ({ statements := [], position := getPosition p }, p)
  | f + 1 =>
    let pos := getPosition p
    match programLoop f [] p with
    | (stmts, p) => ({ statements := stmts, position := pos }, p)

/-- The statement loop of `ParseProgram`. -/
def programLoop (fuel : Nat) (acc : List ast.Statement) (p : Parser) :
    List ast.Statement × Parser :=
  match fuel with
  | 0 => (acc, p)
  | f + 1 =>
    if p.curToken.typ == ast.EOF then (acc, p)
    else
      match parseStatement f p with
      | (st, p) =>
        let acc := match st with
          | some s => acc ++ [s]
          | none => acc
        programLoop f acc (nextToken p)

/-- Go: `Parser.parseStatement` — the dispatch switch on the current
token kind. -/
def parseStatement (fuel : Nat) (p : Parser) : Option ast.Statement × Parser :=
  match fuel with
  | 0 => (none, p)
  | f + 1 =>
    let t := p.curToken.typ
    if t == ast.PACKAGE then parsePackageStatement p
    else if t == ast.SAIKA_FUNC || t == ast.FUNCTION then parseFunctionStatement f p
    else if t == ast.LET || t == ast.VAR || t == ast.CONST then parseVariableStatement f p
    else if t == ast.RETURN then parseReturnStatement f p
    else if t == ast.IF then parseIfStatement f p
    else if t == ast.FOR then parseForStatement f p
    else if t == ast.STRUCT then parseStructStatement f p
    else if t == ast.IMPORT then parseImportStatement p
    else if t == ast.TYPE then parseTypeStatement p
    else parseExpressionStatement f p

/-- Go: `Parser.parseExpressionStatement`. -/
def parseExpressionStatement (fuel : Nat) (p : Parser) : Option ast.Statement × Parser :=
  match fuel with
  | 0 => (none, p)
  | f + 1 =>
    let tok := p.curToken
    let pos := getPosition p
    match parseExpression f LOWEST p with
    | (e, p) =>
      let p := if peekTokenIs p ast.SEMICOLON then nextToken p else p
      (some (.expressionStatement tok e pos), p)

/-- Go: `Parser.parseFunctionStatement`. -/
def parseFunctionStatement (fuel : Nat) (p : Parser) : Option ast.Statement × Parser :=
  match fuel with
  | 0 => (none, p)
  | f + 1 =>
    let tok := p.curToken
    let pos := getPosition p
    match expectPeek ast.IDENT p with
    | (ok1, p) =>
      if !ok1 then (none, p)
      else
        let name := curIdent p
        match expectPeek ast.LPAREN p with
        | (ok2, p) =>
          if !ok2 then (none, p)
          else
            match parseFunctionParameters f p with
            | (paramsOpt, p) =>
              let params := paramsOpt.getD []
              match (if peekTokenIs p ast.IDENT then
                       let p := nextToken p
                       ((some (.identifierType p.curToken p.curToken.literal
                           (getPosition p)) : Option ast.TypeExpression), p)
                     else (none, p)) with
              | (rt, p) =>
                match expectPeek ast.LBRACE p with
                | (ok3, p) =>
                  if !ok3 then (none, p)
                  else
                    match parseBlockStatement f p with
                    | (body, p) =>
                      (some (.functionStatement tok name params rt body pos), p)

/-- Go: `Parser.parseFunctionParameters` (`none` models the nil slice the
failing path returns; the caller stores it unchecked, and ranging over it
behaves like the empty list). -/
def parseFunctionParameters (fuel : Nat) (p : Parser) :
    Option (List ast.FunctionParameter) × Parser :=
  match fuel with
  | 0 => (none, p)
  | f + 1 =>
    if peekTokenIs p ast.RPAREN then (some [], nextToken p)
    else
      let p := nextToken p
      match paramOne p with
      | (prm, p) =>
        match paramsLoop f [prm] p with
        | (params, p) =>
          match expectPeek ast.RPAREN p with
          | (ok, p) =>
            if !ok then (none, p)
            else (some params, p)

/-- One parameter: the current token as its name, an optional type
annotation (shared shape of the two construction sites in Go). -/
def paramOne (p : Parser) : ast.FunctionParameter × Parser :=
  let name := curIdent p
  let pos := getPosition p
  if peekTokenIs p ast.IDENT then
    let p := nextToken p
    (.mk name (some (.identifierType p.curToken p.curToken.literal (getPosition p))) pos, p)
  else
    (.mk name none pos, p)

/-- The comma loop of `parseFunctionParameters`. -/
def paramsLoop (fuel : Nat) (acc : List ast.FunctionParameter) (p : Parser) :
    List ast.FunctionParameter × Parser :=
  match fuel with
  | 0 => (acc, p)
  | f + 1 =>
    if peekTokenIs p ast.COMMA then
      let p := nextToken (nextToken p)
      match paramOne p with
      | (prm, p) => paramsLoop f (acc ++ [prm]) p
    else (acc, p)

/-- Go: `Parser.parsePackageStatement`. -/
def parsePackageStatement (p : Parser) : Option ast.Statement × Parser :=
  let tok := p.curToken
  let pos := getPosition p
  match expectPeek ast.IDENT p with
  | (ok, p) =>
    if !ok then (none, p)
    else
      let name := p.curToken.literal
      let p := if peekTokenIs p ast.SEMICOLON then nextToken p else p
      (some (.packageStatement tok name pos), p)

/-- Go: `Parser.parseImportStatement`. -/
def parseImportStatement (p : Parser) : Option ast.Statement × Parser :=
  let tok := p.curToken
  let pos := getPosition p
  if peekTokenIs p ast.IDENT then
    let p := nextToken p
    let aliasName := p.curToken.literal
    match expectPeek ast.STRING p with
    | (ok, p) =>
      if !ok then (none, p)
      else
        let path := p.curToken.literal
        let p := if peekTokenIs p ast.SEMICOLON then nextToken p else p
        (some (.importStatement tok path aliasName pos), p)
  else
    match expectPeek ast.STRING p with
    | (ok, p) =>
      if !ok then (none, p)
      else
        let path := p.curToken.literal
        let p := if peekTokenIs p ast.SEMICOLON then nextToken p else p
        (some (.importStatement tok path "" pos), p)

/-- Go: `Parser.parseVariableStatement`. -/
def parseVariableStatement (fuel : Nat) (p : Parser) : Option ast.Statement × Parser :=
  match fuel with
  | 0 => (none, p)
  | f + 1 =>
    let tok := p.curToken
    let pos := getPosition p
    let isConst := p.curToken.typ == ast.CONST
    match expectPeek ast.IDENT p with
    | (ok, p) =>
      if !ok then (none, p)
      else
        let name := curIdent p
        match (if peekTokenIs p ast.IDENT then
                 let p := nextToken p
                 ((some (.identifierType p.curToken p.curToken.literal
                     (getPosition p)) : Option ast.TypeExpression), p)
               else (none, p)) with
        | (ty, p) =>
          match (if peekTokenIs p ast.ASSIGN then
                   parseExpression f LOWEST (nextToken (nextToken p))
                 else (none, p)) with
          | (v, p) =>
            let p := if peekTokenIs p ast.SEMICOLON then nextToken p else p
            (some (.variableStatement tok name ty v isConst pos), p)

/-- Go: `Parser.parseReturnStatement`. -/
def parseReturnStatement (fuel : Nat) (p : Parser) : Option ast.Statement × Parser :=
  match fuel with
  | 0 => (none, p)
  | f + 1 =>
    let tok := p.curToken
    let pos := getPosition p
    let p := nextToken p
    match (if !curTokenIs p ast.SEMICOLON && !curTokenIs p ast.RBRACE then
             parseExpression f LOWEST p
           else (none, p)) with
    | (v, p) =>
      let p := if peekTokenIs p ast.SEMICOLON then nextToken p else p
      (some (.returnStatement tok v pos), p)

/-- Go: `Parser.parseIfStatement`. -/
def parseIfStatement (fuel : Nat) (p : Parser) : Option ast.Statement × Parser :=
  match fuel with
  | 0 => (none, p)
  | f + 1 =>
    let tok := p.curToken
    let pos := getPosition p
    let p := nextToken p
    match parseExpression f LOWEST p with
    | (c, p) =>
      match expectPeek ast.LBRACE p with
      | (ok, p) =>
        if !ok then (none, p)
        else
          match parseBlockStatement f p with
          | (cons, p) =>
            if peekTokenIs p ast.ELSE then
              let p := nextToken p
              match expectPeek ast.LBRACE p with
              | (ok2, p) =>
                if !ok2 then (none, p)
                else
                  match parseBlockStatement f p with
                  | (alt, p) =>
                    (some (.ifStatement tok c cons (some alt) pos), p)
            else
              (some (.ifStatement tok c cons none pos), p)

/-- Go: `Parser.parseForStatement` — the for / for-range disambiguation.
The value-only guard is transcribed exactly as written in the source:
`curTokenIs IDENT && peekTokenIs ASSIGN && peekTokenIs RANGE`. -/
def parseForStatement (fuel : Nat) (p : Parser) : Option ast.Statement × Parser :=
  match fuel with
  | 0 => (none, p)
  | f + 1 =>
    let token := p.curToken
    let position := getPosition p
    let p := nextToken p
    if curTokenIs p ast.IDENT && peekTokenIs p ast.COMMA then
      let key := curIdent p
      let p := nextToken (nextToken p)
      let value := curIdent p
      match expectPeek ast.ASSIGN p with
      | (ok, p) =>
        if !ok || !peekTokenIs p ast.RANGE then
          (none, { p with errors := p.errors ++
              ["Expected := range at " ++ toString p.peekToken.line ++ ":" ++
               toString p.peekToken.column] })
        else
          let p := nextToken (nextToken p)
          let p := nextToken p
          match parseExpression f LOWEST p with
          | (coll, p) =>
            match expectPeek ast.LBRACE p with
            | (ok2, p) =>
              if !ok2 then (none, p)
              else
                match parseBlockStatement f p with
                | (body, p) =>
                  (some (.rangeStatement token (some key) (some value) coll body position), p)
    else if curTokenIs p ast.IDENT && peekTokenIs p ast.ASSIGN &&
            peekTokenIs p ast.RANGE then
      let value := curIdent p
      let p := nextToken (nextToken p)
      let p := nextToken p
      match parseExpression f LOWEST p with
      | (coll, p) =>
        match expectPeek ast.LBRACE p with
        | (ok2, p) =>
          if !ok2 then (none, p)
          else
            match parseBlockStatement f p with
            | (body, p) =>
              (some (.rangeStatement token none (some value) coll body position), p)
    else
      match (if !curTokenIs p ast.SEMICOLON then
               match parseStatement f p with
               | (ini, p) =>
                 match expectPeek ast.SEMICOLON p with
                 | (ok, p) =>
                   if !ok then ((none : Option (Option ast.Statement)), p)
                   else (some ini, p)
             else (some none, nextToken p)) with
      | (none, p) => (none, p)
      | (some init, p) =>
        match (if !curTokenIs p ast.SEMICOLON then
                 match parseExpression f LOWEST p with
                 | (c, p) =>
                   match expectPeek ast.SEMICOLON p with
                   | (ok, p) =>
                     if !ok then ((none : Option (Option ast.Expression)), p)
                     else (some c, p)
               else (some none, nextToken p)) with
        | (none, p) => (none, p)
        | (some condition, p) =>
          match (if !curTokenIs p ast.LBRACE then
                   match parseStatement f p with
                   | (pst, p) =>
                     match expectPeek ast.LBRACE p with
                     | (ok, p) =>
                       if !ok then ((none : Option (Option ast.Statement)), p)
                       else (some pst, p)
                 else (some none, p)) with
          | (none, p) => (none, p)
          | (some post, p) =>
            match parseBlockStatement f p with
            | (body, p) =>
              (some (.forStatement token init condition post body position), p)

/-- Go: `Parser.parseStructStatement`. -/
def parseStructStatement (fuel : Nat) (p : Parser) : Option ast.Statement × Parser :=
  match fuel with
  | 0 => (none, p)
  | f + 1 =>
    let tok := p.curToken
    let pos := getPosition p
    match (if peekTokenIs p ast.IDENT then
             let p := nextToken p
             ((some (curIdent p) : Option ast.Identifier), p)
           else (none, p)) with
    | (nm, p) =>
      match expectPeek ast.LBRACE p with
      | (ok, p) =>
        if !ok then (none, p)
        else
          let p := nextToken p
          match structFieldsLoop f [] p with
          | (none, p) => (none, p)
          | (some fields, p) =>
            (some (.structStatement (.mk tok nm fields pos)), p)

/-- The field loop of `parseStructStatement`. -/
def structFieldsLoop (fuel : Nat) (acc : List (String × ast.TypeExpression))
    (p : Parser) : Option (List (String × ast.TypeExpression)) × Parser :=
  match fuel with
  | 0 => (some acc, p)
  | f + 1 =>
    if !curTokenIs p ast.RBRACE && !curTokenIs p ast.EOF then
      if !curTokenIs p ast.IDENT then
        (none, { p with errors := p.errors ++
            ["Expected field name at " ++ toString p.curToken.line ++ ":" ++
             toString p.curToken.column] })
      else
        let fieldName := p.curToken.literal
        match expectPeek ast.IDENT p with
        | (ok, p) =>
          if !ok then (none, p)
          else
            let fieldType : ast.TypeExpression :=
              .identifierType p.curToken p.curToken.literal (getPosition p)
            structFieldsLoop f (acc ++ [(fieldName, fieldType)]) (nextToken p)
    else (some acc, p)

/-- Go: `Parser.parseBlockStatement` (never nil in the source). -/
def parseBlockStatement (fuel : Nat) (p : Parser) : ast.BlockStatement × Parser :=
  match fuel with
  | 0 => (.mk p.curToken [] (getPosition p), p)
  | f + 1 =>
    let tok := p.curToken
    let pos := getPosition p
    match blockLoop f [] (nextToken p) with
    | (stmts, p) => (.mk tok stmts pos, p)

/-- The statement loop of `parseBlockStatement`. -/
def blockLoop (fuel : Nat) (acc : List ast.Statement) (p : Parser) :
    List ast.Statement × Parser :=
  match fuel with
  | 0 => (acc, p)
  | f + 1 =>
    if !curTokenIs p ast.RBRACE && !curTokenIs p ast.EOF then
      match parseStatement f p with
      | (st, p) =>
        let acc := match st with
          | some s => acc ++ [s]
          | none => acc
        blockLoop f acc (nextToken p)
    else (acc, p)

/-- Go: `Parser.parseExpression` — the precedence-climbing core: a prefix
handler chosen by the current token kind, then the infix loop. -/
def parseExpression (fuel : Nat) (precedence : Int) (p : Parser) :
    Option ast.Expression × Parser :=
  match fuel with
  | 0 => (none, p)
  | f + 1 =>
    let t := p.curToken.typ
    if !hasPrefixFn t then (none, noPrefixParseFnError p)
    else
      match (if t == ast.IDENT then parseIdentifier p
             else if t == ast.INT then parseIntegerLiteral p
             else if t == ast.FLOAT then parseFloatLiteral p
             else if t == ast.STRING then parseStringLiteral p
             else if t == ast.CHAR then parseCharLiteral p
             else if t == ast.TRUE || t == ast.FALSE then parseBooleanLiteral p
             else if t == ast.LPAREN then parseGroupedExpression f p
             else if t == ast.LBRACKET then parseArrayLiteral f p
             else if t == ast.LBRACE then parseHashLiteral f p
             else parsePrefixExpression f p) with
      | (left, p) => infixLoop f precedence left p

/-- The infix loop of `parseExpression`, dispatching on the peek token's
registered infix handler. -/
def infixLoop (fuel : Nat) (precedence : Int) (left : Option ast.Expression)
    (p : Parser) : Option ast.Expression × Parser :=
  match fuel with
  | 0 => (left, p)
  | f + 1 =>
    if !peekTokenIs p ast.SEMICOLON && decide (precedence < peekPrecedence p) then
      let t := p.peekToken.typ
      if !hasInfixFn t then (left, p)
      else
        let p := nextToken p
        match (if isOrdinaryInfix t then parseInfixExpression f left p
               else if isAssignInfix t then parseAssignmentExpression f left p
               else if t == ast.LPAREN then parseCallExpression f left p
               else if t == ast.LBRACKET then parseIndexExpression f left p
               else if t == ast.DOT then parseMemberExpression left p
               else parsePostfixExpression left p) with
        | (l2, p) => infixLoop f precedence l2 p
    else (left, p)

/-- Go: `Parser.parseGroupedExpression`. -/
def parseGroupedExpression (fuel : Nat) (p : Parser) : Option ast.Expression × Parser :=
  match fuel with
  | 0 => (none, p)
  | f + 1 =>
    let p := nextToken p
    match parseExpression f LOWEST p with
    | (e, p) =>
      match expectPeek ast.RPAREN p with
      | (ok, p) =>
        if !ok then (none, p)
        else (e, p)

/-- Go: `Parser.parseArrayLiteral`. -/
def parseArrayLiteral (fuel : Nat) (p : Parser) : Option ast.Expression × Parser :=
  match fuel with
  | 0 => (none, p)
  | f + 1 =>
    let tok := p.curToken
    let pos := getPosition p
    match parseExpressionList f ast.RBRACKET p with
    | (elemsOpt, p) =>
      (some (.arrayLiteral tok (elemsOpt.getD []) pos), p)

/-- Go: `Parser.parseHashLiteral`. -/
def parseHashLiteral (fuel : Nat) (p : Parser) : Option ast.Expression × Parser :=
  match fuel with
  | 0 => (none, p)
  | f + 1 =>
    let tok := p.curToken
    let pos := getPosition p
    match hashPairsLoop f [] p with
    | (none, p) => (none, p)
    | (some pairs, p) =>
      match expectPeek ast.RBRACE p with
      | (ok, p) =>
        if !ok then (none, p)
        else (some (.hashLiteral tok pairs pos), p)

/-- The pair loop of `parseHashLiteral`. -/
def hashPairsLoop (fuel : Nat)
    (acc : List (Option ast.Expression × Option ast.Expression)) (p : Parser) :
    Option (List (Option ast.Expression × Option ast.Expression)) × Parser :=
  match fuel with
  | 0 => (some acc, p)
  | f + 1 =>
    if !peekTokenIs p ast.RBRACE then
      let p := nextToken p
      match parseExpression f LOWEST p with
      | (k, p) =>
        match expectPeek ast.COLON p with
        | (ok, p) =>
          if !ok then (none, p)
          else
            let p := nextToken p
            match parseExpression f LOWEST p with
            | (v, p) =>
              let acc := acc ++ [(k, v)]
              if !peekTokenIs p ast.RBRACE then
                match expectPeek ast.COMMA p with
                | (ok2, p) =>
                  if !ok2 then (none, p)
                  else hashPairsLoop f acc p
              else hashPairsLoop f acc p
    else (some acc, p)

/-- Go: `Parser.parsePrefixExpression`. -/
def parsePrefixExpression (fuel : Nat) (p : Parser) : Option ast.Expression × Parser :=
  match fuel with
  | 0 => (none, p)
  | f + 1 =>
    let tok := p.curToken
    let op := p.curToken.literal
    let pos := getPosition p
    let p := nextToken p
    match parseExpression f PREFIX p with
    | (r, p) => (some (.unaryExpression tok op r pos), p)

/-- Go: `Parser.parseInfixExpression` — the right-hand side is parsed at
the operator's own precedence (left associativity). -/
def parseInfixExpression (fuel : Nat) (left : Option ast.Expression) (p : Parser) :
    Option ast.Expression × Parser :=
  match fuel with
  | 0 => (none, p)
  | f + 1 =>
    let tok := p.curToken
    let op := p.curToken.literal
    let pos := getPosition p
    let precedence := curPrecedence p
    let p := nextToken p
    match parseExpression f precedence p with
    | (r, p) => (some (.binaryExpression tok left op r pos), p)

/-- Go: `Parser.parseAssignmentExpression` — the right-hand side is parsed
at LOWEST (right associativity). -/
def parseAssignmentExpression (fuel : Nat) (left : Option ast.Expression)
    (p : Parser) : Option ast.Expression × Parser :=
  match fuel with
  | 0 => (none, p)
  | f + 1 =>
    let tok := p.curToken
    let op := p.curToken.literal
    let pos := getPosition p
    let p := nextToken p
    match parseExpression f LOWEST p with
    | (r, p) => (some (.assignmentExpression tok left op r pos), p)

/-- Go: `Parser.parseCallExpression`. -/
def parseCallExpression (fuel : Nat) (function : Option ast.Expression)
    (p : Parser) : Option ast.Expression × Parser :=
  match fuel with
  | 0 => (none, p)
  | f + 1 =>
    let tok := p.curToken
    let pos := getPosition p
    match parseExpressionList f ast.RPAREN p with
    | (argsOpt, p) =>
      (some (.callExpression tok function (argsOpt.getD []) pos), p)

/-- Go: `Parser.parseIndexExpression`. -/
def parseIndexExpression (fuel : Nat) (left : Option ast.Expression)
    (p : Parser) : Option ast.Expression × Parser :=
  match fuel with
  | 0 => (none, p)
  | f + 1 =>
    let tok := p.curToken
    let pos := getPosition p
    let p := nextToken p
    match parseExpression f LOWEST p with
    | (ix, p) =>
      match expectPeek ast.RBRACKET p with
      | (ok, p) =>
        if !ok then (none, p)
        else (some (.indexExpression tok left ix pos), p)

/-- Go: `Parser.parseExpressionList`. -/
def parseExpressionList (fuel : Nat) (endT : ast.TokenType) (p : Parser) :
    Option (List (Option ast.Expression)) × Parser :=
  match fuel with
  | 0 => (none, p)
  | f + 1 =>
    if peekTokenIs p endT then (some [], nextToken p)
    else
      let p := nextToken p
      match parseExpression f LOWEST p with
      | (e, p) =>
        match exprListLoop f [e] p with
        | (l, p) =>
          match expectPeek endT p with
          | (ok, p) =>
            if !ok then (none, p)
            else (some l, p)

/-- The comma loop of `parseExpressionList`. -/
def exprListLoop (fuel : Nat) (acc : List (Option ast.Expression)) (p : Parser) :
    List (Option ast.Expression) × Parser :=
  match fuel with
  | 0 => (acc, p)
  | f + 1 =>
    if peekTokenIs p ast.COMMA then
      let p := nextToken (nextToken p)
      match parseExpression f LOWEST p with
      | (e, p) => exprListLoop f (acc ++ [e]) p
    else (acc, p)

end

/-- Lex and parse a source string (the transpiler's front half). -/
def parseSource (src : String) : ast.Program × Parser :=
  let toks := lexer.tokenize src
  ParseProgram (src.length * 2 + 64) (New toks "")

end parser

namespace codegen

/-- Go: `codegen.Generator` (current iteration), minus the `program` field
(the program is passed to `Generate` explicitly here).  `panicked` records
that the Go code would have dereferenced a nil interface (its
unsupported-node default case calls GetPosition on the value); from such a
branch the model produces no further effect. -/
structure Gen where
  errors : List String
  indentLevel : Int
  currentPackage : String
  panicked : Bool
deriving Repr

/-- The state `codegen.New` starts from. -/
def initGen : Gen :=
  { errors := [], indentLevel := 0, currentPackage := "", panicked := false }

/-- Go: `Generator.indent` — `strings.Repeat("\t", indentLevel)` (Go
panics on a negative count; the theorems show the level never goes
negative, and `Int.toNat` renders the never-reached negative case as 0). -/
def indent (g : Gen) : String :=
  String.mk (List.replicate g.indentLevel.toNat '\t')

/-- Go: `Generator.increaseIndent`. -/
def increaseIndent (g : Gen) : Gen :=
  { g with indentLevel := g.indentLevel + 1 }

/-- Go: `Generator.decreaseIndent` — a guarded decrement: a no-op at zero. -/
def decreaseIndent (g : Gen) : Gen :=
  if g.indentLevel > 0 then { g with indentLevel := g.indentLevel - 1 } else g

/-- Go: `Generator.addError`. -/
def addError (message : String) (pos : ast.Position) (g : Gen) : Gen :=
  if pos.file != "" then
    { g with errors := g.errors ++
        [pos.file ++ ":" ++ toString pos.line ++ ":" ++ toString pos.column ++
         ": " ++ message] }
  else
    { g with errors := g.errors ++
        ["line " ++ toString pos.line ++ ", column " ++ toString pos.column ++
         ": " ++ message] }

/-- The nil-interface dereference of the Go default cases. -/
def goPanic (g : Gen) : Gen := { g with panicked := true }

/-- Stand-in for `fmt.Sprintf("%f", value)` on the float a literal parsed
to: float formatting is outside this embedding and no claim observes it. -/
def goSprintfFloat (lit : String) : String := lit

/-- Go: `Generator.generateImportStatement` (pure in the source). -/
def generateImportStatement (path aliasName : String) : String :=
  let path :=
    if !path.startsWith "\"" && !path.endsWith "\"" then "\"" ++ path ++ "\""
    else path
  if aliasName != "" then "import " ++ aliasName ++ " " ++ path
  else "import " ++ path

mutual

/-- Go: `Generator.generateStatement` — the dispatch switch.  (The
`*ast.BlockStatement` default case is unreachable: see `ast.Statement`.) -/
def generateStatement (fuel : Nat) (s : ast.Statement) (g : Gen) : String × Gen :=
  match fuel with
  | 0 => ("", g)
  | f + 1 =>
    match s with
    | .packageStatement _ name _ =>
      ("package " ++ name, { g with currentPackage := name })
    | .importStatement _ path aliasName _ =>
      (generateImportStatement path aliasName, g)
    | .functionStatement _ name params rt body _ =>
      generateFunctionStatement f name params rt body g
    | .variableStatement _ name ty v isConst _ =>
      generateVariableStatement f name ty v isConst g
    | .returnStatement _ v _ => generateReturnStatement f v g
    | .ifStatement _ c cons alt _ => generateIfStatement f c cons alt g
    | .forStatement _ i c pst b _ => generateForStatement f i c pst b g
    | .rangeStatement _ k v coll b _ => generateRangeStatement f k v coll b g
    | .expressionStatement _ e _ => generateExpression f e g
    | .structStatement sd => generateStructStatement f sd g

/-- Go: `Generator.generateFunctionStatement` (current iteration): always
the canonical keyword `func`, then the source function name unchanged. -/
def generateFunctionStatement (fuel : Nat) (name : ast.Identifier)
    (params : List ast.FunctionParameter) (rt : Option ast.TypeExpression)
    (body : ast.BlockStatement) (g : Gen) : String × Gen :=
  match fuel with
  | 0 => ("", g)
  | f + 1 =>
    match genParams f params g with
    | (prs, g) =>
      match (match rt with
             | some t =>
               match generateTypeExpression f t g with
               | (ts, g) => (" " ++ ts, g)
             | none => ("", g)) with
      | (rts, g) =>
        match generateBlockStatement f body g with
        | (bs, g) =>
          ("func " ++ name.value ++ "(" ++ String.intercalate ", " prs ++ ")" ++
             rts ++ " " ++ bs, g)

/-- The parameter loop of `generateFunctionStatement`. -/
def genParams (fuel : Nat) (ps : List ast.FunctionParameter) (g : Gen) :
    List String × Gen :=
  match fuel, ps with
  | 0, _ => ([], g)
  | _, [] => ([], g)
  | f + 1, .mk name ty _ :: rest =>
    match (match ty with
           | some t =>
             match generateTypeExpression f t g with
             | (ts, g) => (name.value ++ " " ++ ts, g)
           | none => (name.value, g)) with
    | (one, g) =>
      match genParams f rest g with
      | (more, g) => (one :: more, g)

/-- Go: `Generator.generateVariableStatement`. -/
def generateVariableStatement (fuel : Nat) (name : ast.Identifier)
    (ty : Option ast.TypeExpression) (v : Option ast.Expression)
    (isConst : Bool) (g : Gen) : String × Gen :=
  match fuel with
  | 0 => ("", g)
  | f + 1 =>
    let kw := if isConst then "const " else "var "
    match (match ty with
           | some t =>
             match generateTypeExpression f t g with
             | (ts, g) => (" " ++ ts, g)
           | none => ("", g)) with
    | (tys, g) =>
      match (match v with
             | some e =>
               match generateExpression f (some e) g with
               | (es, g) => (" = " ++ es, g)
             | none => ("", g)) with
      | (vs, g) => (kw ++ name.value ++ tys ++ vs, g)

/-- Go: `Generator.generateReturnStatement`. -/
def generateReturnStatement (fuel : Nat) (v : Option ast.Expression) (g : Gen) :
    String × Gen :=
  match fuel with
  | 0 => ("", g)
  | f + 1 =>
    match v with
    | some e =>
      match generateExpression f (some e) g with
      | (es, g) => ("return " ++ es, g)
    | none => ("return", g)

/-- Go: `Generator.generateIfStatement`. -/
def generateIfStatement (fuel : Nat) (c : Option ast.Expression)
    (cons : ast.BlockStatement) (alt : Option ast.BlockStatement) (g : Gen) :
    String × Gen :=
  match fuel with
  | 0 => ("", g)
  | f + 1 =>
    match generateExpression f c g with
    | (cs, g) =>
      match generateBlockStatement f cons g with
      | (bs, g) =>
        match alt with
        | some a =>
          match generateBlockStatement f a g with
          | (as2, g) => ("if " ++ cs ++ " " ++ bs ++ " else " ++ as2, g)
        | none => ("if " ++ cs ++ " " ++ bs, g)

/-- Go: `Generator.generateForStatement` (current iteration): the init
clause is rendered by the plain statement generator — a variable
declaration in it keeps its `var`/`const` form. -/
def generateForStatement (fuel : Nat) (i : Option ast.Statement)
    (c : Option ast.Expression) (pst : Option ast.Statement)
    (b : ast.BlockStatement) (g : Gen) : String × Gen :=
  match fuel with
  | 0 => ("", g)
  | f + 1 =>
    match (match i with
           | some s => generateStatement f s g
           | none => ("", g)) with
    | (is2, g) =>
      match (match c with
             | some e => generateExpression f (some e) g
             | none => ("", g)) with
      | (cs, g) =>
        match (match pst with
               | some s => generateStatement f s g
               | none => ("", g)) with
        | (ps2, g) =>
          match generateBlockStatement f b g with
          | (bs, g) =>
            ("for " ++ is2 ++ "; " ++ cs ++ "; " ++ ps2 ++ " " ++ bs, g)

/-- Go: `Generator.generateRangeStatement`. -/
def generateRangeStatement (fuel : Nat) (k v : Option ast.Identifier)
    (coll : Option ast.Expression) (b : ast.BlockStatement) (g : Gen) :
    String × Gen :=
  match fuel with
  | 0 => ("", g)
  | f + 1 =>
    let head : String :=
      match k with
      | some key =>
        (match v with
         | some value => key.value ++ ", " ++ value.value ++ " := "
         | none => key.value ++ " := ")
      | none => ""
    match generateExpression f coll g with
    | (cs, g) =>
      match generateBlockStatement f b g with
      | (bs, g) => ("for " ++ head ++ "range " ++ cs ++ " " ++ bs, g)

/-- Go: `Generator.generateStructStatement`. -/
def generateStructStatement (fuel : Nat) (sd : ast.StructData) (g : Gen) :
    String × Gen :=
  match fuel with
  | 0 => ("", g)
  | f + 1 =>
    match sd with
    | .mk _ name fields _ =>
      let head : String :=
        match name with
        | some n => "type " ++ n.value ++ " "
        | none => ""
      let g := increaseIndent g
      match genFields f fields g "" with
      | (fs, g) =>
        let g := decreaseIndent g
        (head ++ "struct \x7b\n" ++ fs ++ indent g ++ "\x7d", g)

/-- The field loop of `generateStructStatement`. -/
def genFields (fuel : Nat) (fields : List (String × ast.TypeExpression))
    (g : Gen) (acc : String) : String × Gen :=
  match fuel, fields with
  | 0, _ => (acc, g)
  | _, [] => (acc, g)
  | f + 1, (name, ty) :: rest =>
    let pre := indent g
    match generateTypeExpression f ty g with
    | (ts, g) => genFields f rest g (acc ++ pre ++ name ++ " " ++ ts ++ "\n")

/-- Go: `Generator.generateBlockStatement` — indent up on entry, each
statement line prefixed with the current indent, indent back down before
the closing brace. -/
def generateBlockStatement (fuel : Nat) (b : ast.BlockStatement) (g : Gen) :
    String × Gen :=
  match fuel with
  | 0 => ("", g)
  | f + 1 =>
    match b with
    | .mk _ stmts _ =>
      let g := increaseIndent g
      match blockStmts f stmts g "" with
      | (body, g) =>
        let g := decreaseIndent g
        ("\x7b\n" ++ body ++ indent g ++ "\x7d", g)

/-- The statement loop of `generateBlockStatement`. -/
def blockStmts (fuel : Nat) (stmts : List ast.Statement) (g : Gen)
    (acc : String) : String × Gen :=
  match fuel, stmts with
  | 0, _ => (acc, g)
  | _, [] => (acc, g)
  | f + 1, s :: rest =>
    let pre := indent g
    match generateStatement f s g with
    | (cs, g) => blockStmts f rest g (acc ++ pre ++ cs ++ "\n")

/-- Go: `Generator.generateExpression` — the nil interface hits the Go
default case, which panics on GetPosition (see `goPanic`). -/
def generateExpression (fuel : Nat) (e : Option ast.Expression) (g : Gen) :
    String × Gen :=
  match fuel with
  | 0 => ("", g)
  | f + 1 =>
    match e with
    | none => ("", goPanic g)
    | some e =>
      match e with
      | .identifier id => (id.value, g)
      | .integerLiteral _ v _ => (toString v, g)
      | .floatLiteral _ lit _ => (goSprintfFloat lit, g)
      | .stringLiteral _ v _ => ("\"" ++ v ++ "\"", g)
      | .booleanLiteral _ v _ => (if v then "true" else "false", g)
      | .arrayLiteral _ elems _ => generateArrayLiteral f elems g
      | .hashLiteral _ pairs _ => generateHashLiteral f pairs g
      | .unaryExpression tok op r _ => generateUnaryExpression f tok op r g
      | .binaryExpression _ l op r _ => generateBinaryExpression f l op r g
      | .assignmentExpression _ l op r _ => generateAssignmentExpression f l op r g
      | .memberExpression _ o pr _ => generateMemberExpression f o pr g
      | .indexExpression _ l ix _ => generateIndexExpression f l ix g
      | .callExpression _ fn args _ => generateCallExpression f fn args g

/-- Go: `Generator.generateTypeExpression` (current iteration): a named
type is rendered unchanged — there is no lookup table here. -/
def generateTypeExpression (fuel : Nat) (t : ast.TypeExpression) (g : Gen) :
    String × Gen :=
  match fuel with
  | 0 => ("", g)
  | f + 1 =>
    match t with
    | .identifierType _ n _ => (n, g)
    | .arrayType _ el _ =>
      match generateTypeExpression f el g with
      | (ts, g) => ("[]" ++ ts, g)
    | .mapType _ k v _ =>
      match generateTypeExpression f k g with
      | (ks, g) =>
        match generateTypeExpression f v g with
        | (vs, g) => ("map[" ++ ks ++ "]" ++ vs, g)
    | .structType sd => generateStructStatement f sd g

/-- Go: `Generator.generateArrayLiteral` — the element type is always the
`interface{}` placeholder. -/
def generateArrayLiteral (fuel : Nat) (elems : List (Option ast.Expression))
    (g : Gen) : String × Gen :=
  match fuel with
  | 0 => ("", g)
  | f + 1 =>
    match genExprList f elems g with
    | (es, g) =>
      ("[]" ++ "interface\x7b\x7d" ++ "\x7b" ++ String.intercalate ", " es ++ "\x7d", g)

/-- Go: `Generator.generateHashLiteral` — always `map[string]interface{}`. -/
def generateHashLiteral (fuel : Nat)
    (pairs : List (Option ast.Expression × Option ast.Expression)) (g : Gen) :
    String × Gen :=
  match fuel with
  | 0 => ("", g)
  | f + 1 =>
    match genPairList f pairs g with
    | (ps, g) =>
      ("map[string]interface\x7b\x7d\x7b" ++ String.intercalate ", " ps ++ "\x7d", g)

/-- The element loop shared by array literals and call arguments. -/
def genExprList (fuel : Nat) (elems : List (Option ast.Expression)) (g : Gen) :
    List String × Gen :=
  match fuel, elems with
  | 0, _ => ([], g)
  | _, [] => ([], g)
  | f + 1, e :: rest =>
    match generateExpression f e g with
    | (es, g) =>
      match genExprList f rest g with
      | (more, g) => (es :: more, g)

/-- The pair loop of `generateHashLiteral`. -/
def genPairList (fuel : Nat)
    (pairs : List (Option ast.Expression × Option ast.Expression)) (g : Gen) :
    List String × Gen :=
  match fuel, pairs with
  | 0, _ => ([], g)
  | _, [] => ([], g)
  | f + 1, (k, v) :: rest =>
    match generateExpression f k g with
    | (ks, g) =>
      match generateExpression f v g with
      | (vs, g) =>
        match genPairList f rest g with
        | (more, g) => ((ks ++ ": " ++ vs) :: more, g)

/-- Go: `Generator.generateUnaryExpression` — postfix for INC/DEC tokens,
prefix otherwise. -/
def generateUnaryExpression (fuel : Nat) (tok : ast.Token) (op : String)
    (r : Option ast.Expression) (g : Gen) : String × Gen :=
  match fuel with
  | 0 => ("", g)
  | f + 1 =>
    match generateExpression f r g with
    | (rs, g) =>
      if tok.typ == ast.INC || tok.typ == ast.DEC then (rs ++ op, g)
      else (op ++ rs, g)

/-- Go: `Generator.generateBinaryExpression` — always parenthesised. -/
def generateBinaryExpression (fuel : Nat) (l : Option ast.Expression)
    (op : String) (r : Option ast.Expression) (g : Gen) : String × Gen :=
  match fuel with
  | 0 => ("", g)
  | f + 1 =>
    match generateExpression f l g with
    | (ls, g) =>
      match generateExpression f r g with
      | (rs, g) => ("(" ++ ls ++ " " ++ op ++ " " ++ rs ++ ")", g)

/-- Go: `Generator.generateAssignmentExpression` — not parenthesised. -/
def generateAssignmentExpression (fuel : Nat) (l : Option ast.Expression)
    (op : String) (r : Option ast.Expression) (g : Gen) : String × Gen :=
  match fuel with
  | 0 => ("", g)
  | f + 1 =>
    match generateExpression f l g with
    | (ls, g) =>
      match generateExpression f r g with
      | (rs, g) => (ls ++ " " ++ op ++ " " ++ rs, g)

/-- Go: `Generator.generateMemberExpression`. -/
def generateMemberExpression (fuel : Nat) (o : Option ast.Expression)
    (pr : ast.Identifier) (g : Gen) : String × Gen :=
  match fuel with
  | 0 => ("", g)
  | f + 1 =>
    match generateExpression f o g with
    | (os, g) =>
      match generateExpression f (some (.identifier pr)) g with
      | (ps, g) => (os ++ "." ++ ps, g)

/-- Go: `Generator.generateIndexExpression`. -/
def generateIndexExpression (fuel : Nat) (l : Option ast.Expression)
    (ix : Option ast.Expression) (g : Gen) : String × Gen :=
  match fuel with
  | 0 => ("", g)
  | f + 1 =>
    match generateExpression f l g with
    | (ls, g) =>
      match generateExpression f ix g with
      | (xs, g) => (ls ++ "[" ++ xs ++ "]", g)

/-- Go: `Generator.generateCallExpression` (Go computes the argument list
first, then renders the callee). -/
def generateCallExpression (fuel : Nat) (fn : Option ast.Expression)
    (args : List (Option ast.Expression)) (g : Gen) : String × Gen :=
  match fuel with
  | 0 => ("", g)
  | f + 1 =>
    match genExprList f args g with
    | (as2, g) =>
      match generateExpression f fn g with
      | (fs, g) => (fs ++ "(" ++ String.intercalate ", " as2 ++ ")", g)

end

/-- Go: `Generator.Generate` — every statement's code, a newline after
each non-empty one. -/
def Generate (fuel : Nat) (prog : ast.Program) : String × Gen :=
  loop fuel prog.statements initGen ""
where
  loop : Nat → List ast.Statement → Gen → String → String × Gen
    | 0, _, g, acc => (acc, g)
    | _, [], g, acc => (acc, g)
    | f + 1, s :: rest, g, acc =>
      match generateStatement f s g with
      | (cs, g) =>
        let acc := if cs != "" then acc ++ cs ++ "\n" else acc
        loop f rest g acc

end codegen

/-- The current pipeline end to end: lex, parse, generate. -/
def transpile (src : String) : String × parser.Parser × codegen.Gen :=
  let r := parser.parseSource src
  let g := codegen.Generate (src.length * 2 + 64) r.1
  (g.1, r.2, g.2)

namespace legacy

/-- Go: `ast.Identifier` of the earlier iteration (internal/ast/ast.go as
checked in): token and value, no position field. -/
structure Ident where
  token : ast.Token
  value : String
deriving Repr, DecidableEq

/-- Go: the expression nodes of the earlier iteration's AST. -/
inductive Expression where
  | identifier (token : ast.Token) (value : String)
  | integerLiteral (token : ast.Token) (value : Int)
  | stringLiteral (token : ast.Token) (value : String)
  | booleanLiteral (token : ast.Token) (value : Bool)
  | prefixExpression (token : ast.Token) (operator : String) (right : Option Expression)
  | infixExpression (token : ast.Token) (left : Option Expression) (operator : String) (right : Option Expression)
  | assignExpression (token : ast.Token) (left : Option Expression) (value : Option Expression)
  | memberExpression (token : ast.Token) (object : Option Expression) (property : Option Expression)
  | callExpression (token : ast.Token) (function : Option Expression) (arguments : List (Option Expression))

/-- Go: `ast.TypedParam` of the earlier iteration. -/
structure TypedParam where
  name : Ident
  typ : Option Ident
deriving Repr, DecidableEq

mutual

/-- Go: the statement nodes of the earlier iteration's AST. -/
inductive Statement where
  | packageStatement (token : ast.Token) (name : String)
  | importStatement (token : ast.Token) (path : String)
  | varStatement (token : ast.Token) (name : Ident) (value : Option Expression)
  | constStatement (token : ast.Token) (name : Ident) (value : Option Expression)
  | returnStatement (token : ast.Token) (returnValue : Option Expression)
  | functionStatement (token : ast.Token) (name : Ident) (parameters : List TypedParam) (body : Block) (returnType : Option Ident)
  | ifStatement (token : ast.Token) (condition : Option Expression) (consequence : Block) (alternative : Option Block)
  | forStatement (token : ast.Token) (init : Option Statement) (condition : Option Expression) (update : Option Statement) (body : Block)
  | expressionStatement (token : ast.Token) (expression : Option Expression)

/-- Go: `ast.BlockStatement` of the earlier iteration. -/
inductive Block where
  | mk (token : ast.Token) (statements : List Statement)

end

/-- Go: `Generator.translateTypeName` (internal/codegen/codegen.go): the
fixed lookup table from the localized type vocabulary to the Go primitive
names; anything else passes through unchanged. -/
def translateTypeName (typeName : String) : String :=
  if typeName == "整数" then "int"
  else if typeName == "字符串" then "string"
  else if typeName == "浮点" then "float64"
  else if typeName == "布尔" then "bool"
  else typeName

mutual

/-- Go: `Generator.generateExpression` of the earlier iteration: no
parentheses around infix renderings, and the default case (a nil
interface included) yields empty text without any error. -/
def generateExpression : Option Expression → String
  | none => ""
  | some (.identifier _ v) => v
  | some (.integerLiteral _ v) => toString v
  | some (.stringLiteral _ v) => "\"" ++ v ++ "\""
  | some (.booleanLiteral _ v) => if v then "true" else "false"
  | some (.prefixExpression _ op r) => op ++ generateExpression r
  | some (.infixExpression _ l op r) =>
    generateExpression l ++ " " ++ op ++ " " ++ generateExpression r
  | some (.assignExpression _ l v) =>
    generateExpression l ++ " = " ++ generateExpression v
  | some (.memberExpression _ o pr) =>
    generateExpression o ++ "." ++ generateExpression pr
  | some (.callExpression _ fn args) =>
    generateExpression fn ++ "(" ++
      String.intercalate ", " (genArgs args) ++ ")"
termination_by e => sizeOf e

/-- The argument loop of the earlier `generateCallExpression` rendering. -/
def genArgs : List (Option Expression) → List String
  | [] => []
  | a :: rest => generateExpression a :: genArgs rest
termination_by l => sizeOf l

end

/-- One rendered parameter of the earlier `generateFunctionStatement`:
`name type` through the lookup table, or the bare name. -/
def renderParam (p : TypedParam) : String :=
  match p.typ with
  | some t => p.name.value ++ " " ++ translateTypeName t.value
  | none => p.name.value

mutual

/-- Go: `Generator.generateStatement` of the earlier iteration.  The
bodies of Go `generateIfStatement` and `generateForStatement` are inlined
at their dispatch sites (they are plain renderings around block
generation); `generateForStatement` renders a var-declaration init clause
in short-declaration form and strips one trailing semicolon from the
update clause. -/
def generateStatement : Statement → String
  | .packageStatement _ name => "package " ++ name
  | .importStatement _ path =>
    let path := if !path.startsWith "\"" then "\"" ++ path ++ "\"" else path
    "import " ++ path
  | .functionStatement _ name params body rt =>
    generateFunctionStatement name params body rt
  | .varStatement _ name v => "var " ++ name.value ++ " = " ++ generateExpression v
  | .constStatement _ name v => "const " ++ name.value ++ " = " ++ generateExpression v
  | .returnStatement _ v =>
    (match v with
     | some e => "return " ++ generateExpression (some e)
     | none => "return")
  | .ifStatement _ c cons alt =>
    "if " ++ generateExpression c ++ " " ++ generateBlockStatement cons ++
      (match alt with
       | some a => " else " ++ generateBlockStatement a
       | none => "")
  | .forStatement _ i c u b =>
    let initStr : String :=
      match i with
      | some (.varStatement _ nm v) => nm.value ++ " := " ++ generateExpression v
      | some s => generateStatement s
      | none => ""
    let condStr : String :=
      match c with
      | some e => generateExpression (some e)
      | none => ""
    let updStr : String :=
      match u with
      | some s =>
        let t := generateStatement s
        if t.endsWith ";" then t.dropRight 1 else t
      | none => ""
    "for " ++ initStr ++ "; " ++ condStr ++ "; " ++ updStr ++ " " ++
      generateBlockStatement b
  | .expressionStatement _ e => generateExpression e
termination_by s => (sizeOf s, 2)

/-- Go: `Generator.generateFunctionStatement` of the earlier iteration:
the canonical `func` keyword, the 入口→main entry-point rewrite, and
parameter and return types through `translateTypeName`. -/
def generateFunctionStatement (name : Ident) (params : List TypedParam)
    (body : Block) (rt : Option Ident) : String :=
  "func " ++ (if name.value == "入口" then "main" else name.value) ++ "(" ++
    String.intercalate ", " (params.map renderParam) ++ ")" ++
    (match rt with
     | some t => " " ++ translateTypeName t.value
     | none => "") ++ " " ++ generateBlockStatement body
termination_by (sizeOf body, 1)

/-- Go: `Generator.generateBlockStatement` of the earlier iteration: no
indentation; expression/var/const statements get a semicolon when the
accumulated text does not already end in one. -/
def generateBlockStatement : Block → String
  | .mk _ stmts => blockLoop stmts "\x7b\n" ++ "\x7d"
termination_by b => (sizeOf b, 0)

/-- The statement loop of the earlier `generateBlockStatement`. -/
def blockLoop : List Statement → String → String
  | [], acc => acc
  | s :: rest, acc =>
    let acc := acc ++ generateStatement s
    let acc :=
      match s with
      | .expressionStatement _ _ => if !acc.endsWith ";" then acc ++ ";" else acc
      | .varStatement _ _ _ => if !acc.endsWith ";" then acc ++ ";" else acc
      | .constStatement _ _ _ => if !acc.endsWith ";" then acc ++ ";" else acc
      | _ => acc
    blockLoop rest (acc ++ "\n")
termination_by l _ => (sizeOf l, 0)

end

/-- Go: `Generator.Generate` of the earlier iteration: every statement's
code with a newline, empty renderings included. -/
def Generate : List Statement → String
  | [] => ""
  | s :: rest => generateStatement s ++ "\n" ++ Generate rest

end legacy

namespace props

/-- A placeholder token for hand-built AST values in concrete theorems. -/
def tok0 : ast.Token := { typ := "", literal := "", line := 0, column := 0 }

/-- A placeholder position for hand-built AST values. -/
def pos0 : ast.Position := { line := 0, column := 0, file := "" }

/-- An identifier token as the lexer emits it (kind IDENT, the name as
literal, the recorded line and column). -/
def identTok (s : String) (line column : Int) : ast.Token :=
  { typ := ast.IDENT, literal := s, line := line, column := column }

/-- The `=` token as the lexer emits it (positions are Go zero values,
see `lexer.newToken`). -/
def assignTok : ast.Token := { typ := ast.ASSIGN, literal := "=", line := 0, column := 0 }

/-- The `+` token as the lexer emits it. -/
def plusTok : ast.Token := { typ := ast.PLUS, literal := "+", line := 0, column := 0 }

/-- Whether a parsed program is exactly one `let`-style declaration of
`x` whose initializer is an addition with a multiplication nested as its
right operand: `1 + (2 * 3)`. -/
def mulNestedInAdd (pr : ast.Program) : Bool :=
  match pr.statements with
  | [.variableStatement _ nm none
      (some (.binaryExpression _ (some (.integerLiteral _ 1 _)) "+"
        (some (.binaryExpression _ (some (.integerLiteral _ 2 _)) "*"
          (some (.integerLiteral _ 3 _)) _)) _))
      false _] => nm.value == "x"
  | _ => false

/-- No top-level statement of the program is a range statement. -/
def noTopLevelRange (stmts : List ast.Statement) : Bool :=
  stmts.all fun s =>
    match s with
    | .rangeStatement _ _ _ _ _ _ => false
    | _ => true

/-- The recovery shape for the malformed-function example: the ruined
function production left no node (only a bare expression statement with no
expression for the stray brace), and the following `let x = 1` statement
was still parsed in full. -/
def letXParsed (pr : ast.Program) : Bool :=
  match pr.statements with
  | [.expressionStatement _ none _,
     .variableStatement _ nm none (some (.integerLiteral _ 1 _)) false _] =>
    nm.value == "x"
  | _ => false

/-- Whether `needle` occurs contiguously inside `hay` (an executable
infix test on character lists). -/
def infixOf : List Char → List Char → Bool
  | needle, [] => needle.isEmpty
  | needle, c :: t => needle.isPrefixOf (c :: t) || infixOf needle t

/-- A classic for statement whose init clause is a `let i = 0` variable
declaration (hand-built: the current parser cannot reach this shape, but
the generator accepts it and the claim is about the generator). -/
def forLetStmt : ast.Statement :=
  .forStatement tok0
    (some (.variableStatement tok0 ⟨tok0, "i", pos0⟩ none
      (some (.integerLiteral tok0 0 pos0)) false pos0))
    none none (.mk tok0 [] pos0) pos0

end props

set_option maxRecDepth 20000

/-- C5: the input `let x = 1 + 2 * 3` parses without diagnostics into a
variable declaration whose initializer nests the multiplication inside
the addition, and the pipeline renders it as `var x = (1 + (2 * 3))` —
multiplicative binds tighter than additive and every binary expression is
rendered parenthesised.  (The input carries a trailing newline, as a
source line does; scanning stops at it.) -/
theorem C5_let_precedence_render :
    (parser.parseSource "let x = 1 + 2 * 3\n").2.errors = [] ∧
    props.mulNestedInAdd (parser.parseSource "let x = 1 + 2 * 3\n").1 = true ∧
    (transpile "let x = 1 + 2 * 3\n").1 = "var x = (1 + (2 * 3))\n" := by
  refine ⟨by decide, by decide, by decide⟩

/-- C7 (counterexample): scanning `123abc` does not yield an illegal-kind
token — the first token produced is a valid integer token `123`, contrary
to the claim's "it yields an illegal-kind token". -/
theorem C7_counterexample :
    (lexer.NextToken 99 (lexer.New "123abc")).1.typ = ast.INT ∧
    (lexer.NextToken 99 (lexer.New "123abc")).1.literal = "123" ∧
    ¬ (lexer.NextToken 99 (lexer.New "123abc")).1.typ = ast.ILLEGAL := by
  refine ⟨by decide, by decide, by decide⟩

/-- C7 (amended): followed by a delimiter, `1e10` and `1.5e-5` each scan
as a single float-kind token whose literal passes the float validation;
`123abc` scans as the integer token `123` followed by the identifier
`abc`, never as a single or an illegal token; an illegal-kind token arises
only when validation fails (for example an out-of-int64-range literal),
and then its recorded column points at the start of the scan. -/
theorem C7_numeric_scanning :
    lexer.tokenize "1e10 " =
      [{ typ := ast.FLOAT, literal := "1e10", line := 1, column := 1 },
       { typ := ast.EOF, literal := "", line := 1, column := 6 }] ∧
    lexer.tokenize "1.5e-5 " =
      [{ typ := ast.FLOAT, literal := "1.5e-5", line := 1, column := 1 },
       { typ := ast.EOF, literal := "", line := 1, column := 8 }] ∧
    strconv.parseFloatOk "1e10" = true ∧
    strconv.parseFloatOk "1.5e-5" = true ∧
    lexer.tokenize "123abc " =
      [{ typ := ast.INT, literal := "123", line := 1, column := 1 },
       { typ := ast.IDENT, literal := "abc", line := 1, column := 4 },
       { typ := ast.EOF, literal := "", line := 1, column := 8 }] ∧
    lexer.tokenize "99999999999999999999 " =
      [{ typ := ast.ILLEGAL, literal := "99999999999999999999", line := 1, column := 1 },
       { typ := ast.EOF, literal := "", line := 1, column := 22 }] := by
  refine ⟨by decide, by decide, by decide, by decide, by decide, by decide⟩

/-- C8: on the unterminated string `"abc` the lexer does not crash and the
following call yields end-of-file, but the token's literal is `ab` — the
final rune is dropped because `readChar` stops advancing `position` at end
of input — and no unterminated-string diagnostic is emitted: the loop's
EOF break precedes the unreachable diagnostic check.  The claim's
"literal is `abc`, a diagnostic is recorded" is what the source's own
diagnostic code clearly intends and fails to do. -/
theorem C8_unterminated_string_behavior :
    (lexer.NextToken 99 (lexer.New "\"abc")).1 =
      { typ := ast.STRING, literal := "ab", line := 1, column := 1 } ∧
    (lexer.NextToken 99 (lexer.New "\"abc")).2.diags = [] ∧
    (lexer.NextToken 99 (lexer.NextToken 99 (lexer.New "\"abc")).2).1.typ = ast.EOF := by
  refine ⟨by decide, by decide, by decide⟩

/-- C1: the value-only range guard of `parseForStatement` demands the one
peek token to be `=` and `range` at once, so it can never fire; on the
claim's input form `for i := range xs { }` the parser falls into the
classic-for branch, records "expected next token to be ;" and produces no
range statement at all. -/
theorem C1_value_only_range_unreachable :
    (∀ p : parser.Parser,
      (parser.peekTokenIs p ast.ASSIGN && parser.peekTokenIs p ast.RANGE) = false) ∧
    props.noTopLevelRange (parser.parseSource "for i := range xs \x7b \x7d").1.statements = true ∧
    (parser.parseSource "for i := range xs \x7b \x7d").2.errors.head? =
      some "Line 0:0 expected next token to be ;, got : instead" := by
  refine ⟨?_, by decide, by decide⟩
  intro p
  by_cases h : p.peekToken.typ = "="
  · simp [parser.peekTokenIs, ast.ASSIGN, ast.RANGE, h]
  · simp [parser.peekTokenIs, ast.ASSIGN, h]

/-- C6: for every triple of identifier names (and whatever positions their
tokens carry), the token sequence of `a = b = c` parses into an assignment
whose right-hand side is itself the assignment `b = c` — the right-hand
side of an assignment is parsed at LOWEST — while the sequence of
`a + b + c` parses left-associatively as `(a + b) + c` — an ordinary
binary operator parses its right-hand side at its own precedence. -/
theorem C6_associativity :
    (∀ (a b c : String) (la ca lb cb lc cc : Int),
      (parser.ParseProgram 32 (parser.New
        [props.identTok a la ca, props.assignTok, props.identTok b lb cb,
         props.assignTok, props.identTok c lc cc] "")).1.statements =
      [.expressionStatement (props.identTok a la ca)
        (some (.assignmentExpression props.assignTok
          (some (.identifier ⟨props.identTok a la ca, a, ⟨la, ca, ""⟩⟩)) "="
          (some (.assignmentExpression props.assignTok
            (some (.identifier ⟨props.identTok b lb cb, b, ⟨lb, cb, ""⟩⟩)) "="
            (some (.identifier ⟨props.identTok c lc cc, c, ⟨lc, cc, ""⟩⟩))
            ⟨0, 0, ""⟩))
          ⟨0, 0, ""⟩))
        ⟨la, ca, ""⟩]) ∧
    (∀ (a b c : String) (la ca lb cb lc cc : Int),
      (parser.ParseProgram 32 (parser.New
        [props.identTok a la ca, props.plusTok, props.identTok b lb cb,
         props.plusTok, props.identTok c lc cc] "")).1.statements =
      [.expressionStatement (props.identTok a la ca)
        (some (.binaryExpression props.plusTok
          (some (.binaryExpression props.plusTok
            (some (.identifier ⟨props.identTok a la ca, a, ⟨la, ca, ""⟩⟩)) "+"
            (some (.identifier ⟨props.identTok b lb cb, b, ⟨lb, cb, ""⟩⟩))
            ⟨0, 0, ""⟩)) "+"
          (some (.identifier ⟨props.identTok c lc cc, c, ⟨lc, cc, ""⟩⟩))
          ⟨0, 0, ""⟩))
        ⟨la, ca, ""⟩]) := by
  exact ⟨fun a b c la ca lb cb lc cc => rfl, fun a b c la ca lb cb lc cc => rfl⟩

/-- C9 (amended): a missing expected token always records the diagnostic
"expected next token to be X, got Y" built from the found token's
*recorded* position (0:0 for operator and delimiter tokens, whose
positions the lexer's `newToken` drops) and aborts only the failing
production; on the example `數 main( { }` followed by `let x = 1`, the
function production yields no node, the two expectation diagnostics and
one no-prefix diagnostic are recorded, and the subsequent `let` statement
still parses in full. -/
theorem C9_missing_token_recovery :
    (∀ (p : parser.Parser) (t : ast.TokenType), p.peekToken.typ ≠ t →
      parser.expectPeek t p = (false, parser.peekError t p)) ∧
    (parser.parseSource "數 main( \x7b \x7d\nlet x = 1\n").2.errors =
      ["Line 0:0 expected next token to be ), got \x7d instead",
       "Line 0:0 expected next token to be \x7b, got \x7d instead",
       "no prefix parse function for \x7d found"] ∧
    props.letXParsed (parser.parseSource "數 main( \x7b \x7d\nlet x = 1\n").1 = true := by
  refine ⟨?_, by decide, by decide⟩
  intro p t h
  simp [parser.expectPeek, parser.peekTokenIs, h]

/-- C9 (counterexample): on the claim's own example the recorded
diagnostic cites position 0:0, but the offending `)`-expectation failure
happened at the `}` that stands on line 1 (at rune index 10 of the input,
with no newline before it): the diagnostic does not carry the offending
position, because the lexer's `newToken` discards the line and column of
delimiter tokens before the parser ever sees them. -/
theorem C9_counterexample :
    (parser.parseSource "數 main( \x7b \x7d\nlet x = 1\n").2.errors.head? =
      some "Line 0:0 expected next token to be ), got \x7d instead" ∧
    (lexer.tokenize "數 main( \x7b \x7d\nlet x = 1\n").getD 4 parser.zeroToken =
      { typ := ast.RBRACE, literal := "\x7d", line := 0, column := 0 } ∧
    ("數 main( \x7b \x7d\nlet x = 1\n".toList.getD 10 ' ') = '\x7d' ∧
    ("數 main( \x7b \x7d\nlet x = 1\n".toList.take 10).all (fun ch => ch != '\n') = true := by
  refine ⟨by decide, by decide, by decide, by decide⟩

/-- C2 (counterexample): the current pipeline renders `數 入口() { }` as
`func 入口() {...}` — the declaration keyword is canonicalised to `func`,
but the designated entry-point identifier 入口 is *not* rewritten to
`main`, contrary to the claim. -/
theorem C2_counterexample :
    (transpile "數 入口() \x7b \x7d\n").1 = "func 入口() \x7b\n\x7d\n" ∧
    (transpile "數 入口() \x7b \x7d\n").2.1.errors = [] ∧
    ¬ (transpile "數 入口() \x7b \x7d\n").1 = "func main() \x7b\n\x7d\n" := by
  refine ⟨by decide, by decide, by decide⟩

/-- C2 (amended): every function declaration renders starting with the
canonical keyword `func`, and the spelling of the declaration keyword is
invisible in the output (the generator never reads the declaration
token); the 入口→main entry-point rewrite is performed only by the legacy
generator (internal/codegen/codegen.go), while the current generator
emits the function name unchanged, 入口 included. -/
theorem C2_func_keyword_rendering :
    (∀ (fuel : Nat) (g : codegen.Gen) (tok tok' : ast.Token)
       (nm : ast.Identifier) (ps : List ast.FunctionParameter)
       (rt : Option ast.TypeExpression) (b : ast.BlockStatement)
       (pos : ast.Position),
      codegen.generateStatement fuel (.functionStatement tok nm ps rt b pos) g =
      codegen.generateStatement fuel (.functionStatement tok' nm ps rt b pos) g) ∧
    (∀ (f : Nat) (nm : ast.Identifier) (ps : List ast.FunctionParameter)
       (rt : Option ast.TypeExpression) (b : ast.BlockStatement) (g : codegen.Gen),
      ∃ t, (codegen.generateFunctionStatement (f + 1) nm ps rt b g).1 =
        "func " ++ (nm.value ++ t)) ∧
    (∀ (tok : ast.Token) (ps : List legacy.TypedParam) (b : legacy.Block)
       (rt : Option legacy.Ident),
      ∃ t, legacy.generateFunctionStatement ⟨tok, "入口"⟩ ps b rt =
        "func " ++ ("main" ++ t)) ∧
    (∀ (tok : ast.Token) (nm : String) (ps : List legacy.TypedParam)
       (b : legacy.Block) (rt : Option legacy.Ident), nm ≠ "入口" →
      ∃ t, legacy.generateFunctionStatement ⟨tok, nm⟩ ps b rt =
        "func " ++ (nm ++ t)) := by
  refine ⟨?_, ?_, ?_, ?_⟩
  · intro fuel g tok tok' nm ps rt b pos
    cases fuel <;> rfl
  · intro f nm ps rt b g
    simp only [codegen.generateFunctionStatement]
    rcases h1 : codegen.genParams f ps g with ⟨prs, g1⟩
    simp only [h1]
    rcases rt with _ | t
    · simp only
      rcases h2 : codegen.generateBlockStatement f b g1 with ⟨bs, g2⟩
      simp only [h2]
      refine ⟨"(" ++ String.intercalate ", " prs ++ ")" ++ "" ++ " " ++ bs, ?_⟩
      simp only [String.append_assoc]
    · simp only
      rcases h2 : codegen.generateTypeExpression f t g1 with ⟨ts, g2⟩
      simp only [h2]
      rcases h3 : codegen.generateBlockStatement f b g2 with ⟨bs, g3⟩
      simp only [h3]
      refine ⟨"(" ++ String.intercalate ", " prs ++ ")" ++ (" " ++ ts) ++ " " ++ bs, ?_⟩
      simp only [String.append_assoc]
  · intro tok ps b rt
    unfold legacy.generateFunctionStatement
    rw [if_pos (by rfl)]
    refine ⟨"(" ++ String.intercalate ", " (ps.map legacy.renderParam) ++ ")" ++
      (match rt with
       | some t => " " ++ legacy.translateTypeName t.value
       | none => "") ++ " " ++ legacy.generateBlockStatement b, ?_⟩
    simp only [String.append_assoc]
  · intro tok nm ps b rt h
    unfold legacy.generateFunctionStatement
    rw [if_neg (by simpa using h)]
    refine ⟨"(" ++ String.intercalate ", " (ps.map legacy.renderParam) ++ ")" ++
      (match rt with
       | some t => " " ++ legacy.translateTypeName t.value
       | none => "") ++ " " ++ legacy.generateBlockStatement b, ?_⟩
    simp only [String.append_assoc]

/-- Helper: the current generator's variable statement always renders with
the `var ` keyword prefix (non-const case) at positive fuel. -/
theorem codegen_varstmt_var_prefix (f : Nat) (nm : ast.Identifier)
    (ty : Option ast.TypeExpression) (v : Option ast.Expression)
    (g : codegen.Gen) :
    ∃ t, (codegen.generateVariableStatement (f + 1) nm ty v false g).1 =
      "var " ++ (nm.value ++ t) := by
  simp only [codegen.generateVariableStatement]
  rcases h1 : (match ty with
               | some t =>
                 match codegen.generateTypeExpression f t g with
                 | (ts, g) => (" " ++ ts, g)
               | none => ("", g)) with ⟨tys, g1⟩
  simp only [h1]
  rcases h2 : (match v with
               | some e =>
                 match codegen.generateExpression f (some e) g1 with
                 | (es, g) => (" = " ++ es, g)
               | none => ("", g1)) with ⟨vs, g2⟩
  simp only [h2]
  refine ⟨tys ++ vs, ?_⟩
  simp only [String.append_assoc]
  rfl

/-- C3 (counterexample): a classic for statement whose init clause is the
variable declaration `let i = 0` is rendered by the current generator
(src/unnamed/part_005) with the init clause in `var i = 0` form — the
short-declaration spelling ` := ` appears nowhere in the output. -/
theorem C3_counterexample :
    (codegen.generateStatement 9 props.forLetStmt codegen.initGen).1 =
      "for var i = 0; ;  \x7b\n\x7d" ∧
    props.infixOf " := ".toList ("for var i = 0; ;  \x7b\n\x7d").toList = false ∧
    props.infixOf "var i = 0".toList ("for var i = 0; ;  \x7b\n\x7d").toList = true := by
  refine ⟨by decide, by decide, by decide⟩

/-- C3 (amended): the short-declaration rewrite of a for-loop's
var-declaration init clause exists only in the legacy generator
(internal/codegen/codegen.go): there, a for statement with a
var-declaration init renders the init as `name := value` while the same
declaration standing alone renders as `var name = value`; the current
generator (src/unnamed/part_005) instead routes the init clause through
the plain statement generator, so it keeps the `var name ...` form. -/
theorem C3_for_init_rendering :
    (∀ (tok tok2 : ast.Token) (nm : legacy.Ident) (v : Option legacy.Expression)
       (c : Option legacy.Expression) (u : Option legacy.Statement) (b : legacy.Block),
      ∃ condStr updStr bodyStr,
      legacy.generateStatement
        (.forStatement tok (some (.varStatement tok2 nm v)) c u b) =
      "for " ++ (nm.value ++ " := " ++ legacy.generateExpression v) ++ "; " ++
        condStr ++ "; " ++ updStr ++ " " ++ bodyStr) ∧
    (∀ (tok : ast.Token) (nm : legacy.Ident) (v : Option legacy.Expression),
      legacy.generateStatement (.varStatement tok nm v) =
        "var " ++ nm.value ++ " = " ++ legacy.generateExpression v) ∧
    (∀ (f : Nat) (tok : ast.Token) (nm : ast.Identifier)
       (ty : Option ast.TypeExpression) (v : Option ast.Expression)
       (pos : ast.Position) (c : Option ast.Expression)
       (pst : Option ast.Statement) (b : ast.BlockStatement) (g : codegen.Gen),
      ∃ rest, (codegen.generateForStatement (f + 3)
          (some (.variableStatement tok nm ty v false pos)) c pst b g).1 =
        "for " ++ ("var " ++ (nm.value ++ rest))) := by
  refine ⟨?_, ?_, ?_⟩
  · intro tok tok2 nm v c u b
    unfold legacy.generateStatement
    refine ⟨(match c with
             | some e => legacy.generateExpression (some e)
             | none => ""),
            (match u with
             | some s =>
               let t := legacy.generateStatement s
               if t.endsWith ";" then t.dropRight 1 else t
             | none => ""),
            legacy.generateBlockStatement b, ?_⟩
    rfl
  · intro tok nm v
    unfold legacy.generateStatement
    rfl
  · intro f tok nm ty v pos c pst b g
    simp only [codegen.generateForStatement]
    rcases h1 : codegen.generateStatement (f + 2)
        (ast.Statement.variableStatement tok nm ty v false pos) g with ⟨is2, g1⟩
    obtain ⟨t, ht⟩ := codegen_varstmt_var_prefix f nm ty v g
    have hs : codegen.generateStatement (f + 2)
        (ast.Statement.variableStatement tok nm ty v false pos) g =
        codegen.generateVariableStatement (f + 1) nm ty v false g := rfl
    rw [hs] at h1
    rw [h1] at ht
    have ht2 : is2 = "var " ++ (nm.value ++ t) := ht
    subst ht2
    rw [← hs] at h1
    simp only [h1]
    rcases h2 : (match c with
                 | some e => codegen.generateExpression (f + 2) (some e) g1
                 | none => ("", g1)) with ⟨cs, g2⟩
    simp only [h2]
    rcases h3 : (match pst with
                 | some s => codegen.generateStatement (f + 2) s g2
                 | none => ("", g2)) with ⟨ps2, g3⟩
    simp only [h3]
    rcases h4 : codegen.generateBlockStatement (f + 2) b g3 with ⟨bs, g4⟩
    simp only [h4]
    refine ⟨t ++ "; " ++ cs ++ "; " ++ ps2 ++ " " ++ bs, ?_⟩
    simp only [String.append_assoc]

/-- C4 (counterexample): the current pipeline renders the parameter type
整数 unchanged — `數 f(x 整数) { }` becomes `func f(x 整数) {...}`, not
`func f(x int) {...}`: the current generator has no type-name lookup
table. -/
theorem C4_counterexample :
    (transpile "數 f(x 整数) \x7b \x7d\n").1 = "func f(x 整数) \x7b\n\x7d\n" ∧
    (transpile "數 f(x 整数) \x7b \x7d\n").2.1.errors = [] ∧
    ¬ (transpile "數 f(x 整数) \x7b \x7d\n").1 = "func f(x int) \x7b\n\x7d\n" := by
  refine ⟨by decide, by decide, by decide⟩

/-- C4 (amended): the localized-type lookup table (整数→int, 字符串→string,
浮点→float64, 布尔→bool, others unchanged) exists only in the legacy
generator (internal/codegen/codegen.go), where it is applied to rendered
parameter types and return types; the current generator
(src/unnamed/part_005) renders an identifier type name unchanged. -/
theorem C4_type_translation :
    (legacy.translateTypeName "整数" = "int" ∧
     legacy.translateTypeName "字符串" = "string" ∧
     legacy.translateTypeName "浮点" = "float64" ∧
     legacy.translateTypeName "布尔" = "bool") ∧
    (∀ s : String, s ≠ "整数" → s ≠ "字符串" → s ≠ "浮点" → s ≠ "布尔" →
      legacy.translateTypeName s = s) ∧
    (∀ (nm t : legacy.Ident),
      legacy.renderParam ⟨nm, some t⟩ =
        nm.value ++ " " ++ legacy.translateTypeName t.value) ∧
    (∀ (name : legacy.Ident) (ps : List legacy.TypedParam) (b : legacy.Block)
       (t : legacy.Ident),
      ∃ pre, legacy.generateFunctionStatement name ps b (some t) =
        pre ++ (" " ++ legacy.translateTypeName t.value ++ (" " ++
          legacy.generateBlockStatement b))) ∧
    (∀ (f : Nat) (tok : ast.Token) (n : String) (pos : ast.Position)
       (g : codegen.Gen),
      codegen.generateTypeExpression (f + 1) (.identifierType tok n pos) g =
        (n, g)) := by
  refine ⟨⟨rfl, rfl, rfl, rfl⟩, ?_, ?_, ?_, ?_⟩
  · intro s h1 h2 h3 h4
    unfold legacy.translateTypeName
    rw [if_neg (by simpa using h1), if_neg (by simpa using h2),
        if_neg (by simpa using h3), if_neg (by simpa using h4)]
  · intro nm t
    rfl
  · intro name ps b t
    unfold legacy.generateFunctionStatement
    refine ⟨"func " ++ (if name.value == "入口" then "main" else name.value) ++ "(" ++
      String.intercalate ", " (ps.map legacy.renderParam) ++ ")", ?_⟩
    simp only [String.append_assoc]
  · intro f tok n pos g
    rfl

/-- Indent-level preservation across the whole current-generator mutual
block: at any fuel, every generator function returns with `indentLevel`
equal to its value on entry, provided the entry value is non-negative
(`generateBlockStatement` and `generateStructStatement` raise the level
and lower it back; nothing else touches it). -/
theorem codegen_indent_preserved : ∀ fuel : Nat,
    (∀ (s : ast.Statement) (g : codegen.Gen), 0 ≤ g.indentLevel →
      (codegen.generateStatement fuel s g).2.indentLevel = g.indentLevel) ∧
    (∀ (nm : ast.Identifier) (ps : List ast.FunctionParameter)
       (rt : Option ast.TypeExpression) (b : ast.BlockStatement)
       (g : codegen.Gen), 0 ≤ g.indentLevel →
      (codegen.generateFunctionStatement fuel nm ps rt b g).2.indentLevel = g.indentLevel) ∧
    (∀ (ps : List ast.FunctionParameter) (g : codegen.Gen), 0 ≤ g.indentLevel →
      (codegen.genParams fuel ps g).2.indentLevel = g.indentLevel) ∧
    (∀ (nm : ast.Identifier) (ty : Option ast.TypeExpression)
       (v : Option ast.Expression) (ic : Bool) (g : codegen.Gen), 0 ≤ g.indentLevel →
      (codegen.generateVariableStatement fuel nm ty v ic g).2.indentLevel = g.indentLevel) ∧
    (∀ (v : Option ast.Expression) (g : codegen.Gen), 0 ≤ g.indentLevel →
      (codegen.generateReturnStatement fuel v g).2.indentLevel = g.indentLevel) ∧
    (∀ (c : Option ast.Expression) (cons : ast.BlockStatement)
       (alt : Option ast.BlockStatement) (g : codegen.Gen), 0 ≤ g.indentLevel →
      (codegen.generateIfStatement fuel c cons alt g).2.indentLevel = g.indentLevel) ∧
    (∀ (i : Option ast.Statement) (c : Option ast.Expression)
       (pst : Option ast.Statement) (b : ast.BlockStatement) (g : codegen.Gen),
       0 ≤ g.indentLevel →
      (codegen.generateForStatement fuel i c pst b g).2.indentLevel = g.indentLevel) ∧
    (∀ (k v : Option ast.Identifier) (coll : Option ast.Expression)
       (b : ast.BlockStatement) (g : codegen.Gen), 0 ≤ g.indentLevel →
      (codegen.generateRangeStatement fuel k v coll b g).2.indentLevel = g.indentLevel) ∧
    (∀ (sd : ast.StructData) (g : codegen.Gen), 0 ≤ g.indentLevel →
      (codegen.generateStructStatement fuel sd g).2.indentLevel = g.indentLevel) ∧
    (∀ (fs : List (String × ast.TypeExpression)) (g : codegen.Gen) (acc : String),
       0 ≤ g.indentLevel →
      (codegen.genFields fuel fs g acc).2.indentLevel = g.indentLevel) ∧
    (∀ (b : ast.BlockStatement) (g : codegen.Gen), 0 ≤ g.indentLevel →
      (codegen.generateBlockStatement fuel b g).2.indentLevel = g.indentLevel) ∧
    (∀ (ss : List ast.Statement) (g : codegen.Gen) (acc : String), 0 ≤ g.indentLevel →
      (codegen.blockStmts fuel ss g acc).2.indentLevel = g.indentLevel) ∧
    (∀ (e : Option ast.Expression) (g : codegen.Gen), 0 ≤ g.indentLevel →
      (codegen.generateExpression fuel e g).2.indentLevel = g.indentLevel) ∧
    (∀ (t : ast.TypeExpression) (g : codegen.Gen), 0 ≤ g.indentLevel →
      (codegen.generateTypeExpression fuel t g).2.indentLevel = g.indentLevel) ∧
    (∀ (es : List (Option ast.Expression)) (g : codegen.Gen), 0 ≤ g.indentLevel →
      (codegen.generateArrayLiteral fuel es g).2.indentLevel = g.indentLevel) ∧
    (∀ (prs : List (Option ast.Expression × Option ast.Expression))
       (g : codegen.Gen), 0 ≤ g.indentLevel →
      (codegen.generateHashLiteral fuel prs g).2.indentLevel = g.indentLevel) ∧
    (∀ (es : List (Option ast.Expression)) (g : codegen.Gen), 0 ≤ g.indentLevel →
      (codegen.genExprList fuel es g).2.indentLevel = g.indentLevel) ∧
    (∀ (prs : List (Option ast.Expression × Option ast.Expression))
       (g : codegen.Gen), 0 ≤ g.indentLevel →
      (codegen.genPairList fuel prs g).2.indentLevel = g.indentLevel) ∧
    (∀ (tok : ast.Token) (op : String) (r : Option ast.Expression)
       (g : codegen.Gen), 0 ≤ g.indentLevel →
      (codegen.generateUnaryExpression fuel tok op r g).2.indentLevel = g.indentLevel) ∧
    (∀ (l : Option ast.Expression) (op : String) (r : Option ast.Expression)
       (g : codegen.Gen), 0 ≤ g.indentLevel →
      (codegen.generateBinaryExpression fuel l op r g).2.indentLevel = g.indentLevel) ∧
    (∀ (l : Option ast.Expression) (op : String) (r : Option ast.Expression)
       (g : codegen.Gen), 0 ≤ g.indentLevel →
      (codegen.generateAssignmentExpression fuel l op r g).2.indentLevel = g.indentLevel) ∧
    (∀ (o : Option ast.Expression) (pr : ast.Identifier) (g : codegen.Gen),
       0 ≤ g.indentLevel →
      (codegen.generateMemberExpression fuel o pr g).2.indentLevel = g.indentLevel) ∧
    (∀ (l ix : Option ast.Expression) (g : codegen.Gen), 0 ≤ g.indentLevel →
      (codegen.generateIndexExpression fuel l ix g).2.indentLevel = g.indentLevel) ∧
    (∀ (fn : Option ast.Expression) (args : List (Option ast.Expression))
       (g : codegen.Gen), 0 ≤ g.indentLevel →
      (codegen.generateCallExpression fuel fn args g).2.indentLevel = g.indentLevel) := by
  intro fuel
  induction fuel with
  | zero =>
    refine ⟨fun _ _ _ => rfl, fun _ _ _ _ _ _ => rfl, ?_,
            fun _ _ _ _ _ _ => rfl, fun _ _ _ => rfl, fun _ _ _ _ _ => rfl,
            fun _ _ _ _ _ _ => rfl, fun _ _ _ _ _ _ => rfl, fun _ _ _ => rfl,
            ?_, fun _ _ _ => rfl, ?_, fun _ _ _ => rfl, fun _ _ _ => rfl,
            fun _ _ _ => rfl, fun _ _ _ => rfl, ?_, ?_, fun _ _ _ _ _ => rfl,
            fun _ _ _ _ _ => rfl, fun _ _ _ _ _ => rfl, fun _ _ _ _ => rfl,
            fun _ _ _ _ => rfl, fun _ _ _ _ => rfl⟩
    · intro ps g hg
      cases ps <;> rfl
    · intro fs g acc hg
      cases fs <;> rfl
    · intro ss g acc hg
      cases ss <;> rfl
    · intro es g hg
      cases es <;> rfl
    · intro prs g hg
      cases prs <;> rfl
  | succ f IH =>
    obtain ⟨ihStmt, ihFun, ihParams, ihVar, ihRet, ihIf, ihFor, ihRange,
            ihStruct, ihFields, ihBlock, ihStmts, ihExpr, ihType, ihArr,
            ihHash, ihList, ihPairs, ihUn, ihBin, ihAsg, ihMem, ihIdx,
            ihCall⟩ := IH
    refine ⟨?_, ?_, ?_, ?_, ?_, ?_, ?_, ?_, ?_, ?_, ?_, ?_, ?_, ?_, ?_, ?_,
            ?_, ?_, ?_, ?_, ?_, ?_, ?_, ?_⟩
    · intro s g hg
      cases s with
      | packageStatement tok name pos => exact rfl
      | importStatement tok path aliasName pos => exact rfl
      | functionStatement tok nm ps rt b pos => exact ihFun nm ps rt b g hg
      | variableStatement tok nm ty v ic pos => exact ihVar nm ty v ic g hg
      | returnStatement tok v pos => exact ihRet v g hg
      | ifStatement tok c cons alt pos => exact ihIf c cons alt g hg
      | forStatement tok i c pst b pos => exact ihFor i c pst b g hg
      | rangeStatement tok k v coll b pos => exact ihRange k v coll b g hg
      | expressionStatement tok e pos => exact ihExpr e g hg
      | structStatement sd => exact ihStruct sd g hg
    · intro nm ps rt b g hg
      have h1 := ihParams ps g hg
      cases rt with
      | none =>
        have h2 := ihBlock b (codegen.genParams f ps g).2 (by rw [h1]; exact hg)
        show (codegen.generateBlockStatement f b
          (codegen.genParams f ps g).2).2.indentLevel = g.indentLevel
        rw [h2, h1]
      | some t =>
        have h2 := ihType t (codegen.genParams f ps g).2 (by rw [h1]; exact hg)
        have h3 := ihBlock b
          (codegen.generateTypeExpression f t (codegen.genParams f ps g).2).2
          (by rw [h2, h1]; exact hg)
        show (codegen.generateBlockStatement f b
          (codegen.generateTypeExpression f t
            (codegen.genParams f ps g).2).2).2.indentLevel = g.indentLevel
        rw [h3, h2, h1]
    · intro ps g hg
      cases ps with
      | nil => rfl
      | cons p rest =>
        rcases p with ⟨name, ty, pos⟩
        cases ty with
        | none =>
          show (codegen.genParams f rest g).2.indentLevel = g.indentLevel
          exact ihParams rest g hg
        | some t =>
          have h1 := ihType t g hg
          have h2 := ihParams rest (codegen.generateTypeExpression f t g).2
            (by rw [h1]; exact hg)
          show (codegen.genParams f rest
            (codegen.generateTypeExpression f t g).2).2.indentLevel = g.indentLevel
          rw [h2, h1]
    · intro nm ty v ic g hg
      cases ty with
      | none =>
        cases v with
        | none => rfl
        | some e =>
          show (codegen.generateExpression f (some e) g).2.indentLevel = g.indentLevel
          exact ihExpr (some e) g hg
      | some t =>
        have h1 := ihType t g hg
        cases v with
        | none =>
          show (codegen.generateTypeExpression f t g).2.indentLevel = g.indentLevel
          exact h1
        | some e =>
          have h2 := ihExpr (some e) (codegen.generateTypeExpression f t g).2
            (by rw [h1]; exact hg)
          show (codegen.generateExpression f (some e)
            (codegen.generateTypeExpression f t g).2).2.indentLevel = g.indentLevel
          rw [h2, h1]
    · intro v g hg
      cases v with
      | none => rfl
      | some e =>
        show (codegen.generateExpression f (some e) g).2.indentLevel = g.indentLevel
        exact ihExpr (some e) g hg
    · intro c cons alt g hg
      have h1 := ihExpr c g hg
      have h2 := ihBlock cons (codegen.generateExpression f c g).2
        (by rw [h1]; exact hg)
      cases alt with
      | none =>
        show (codegen.generateBlockStatement f cons
          (codegen.generateExpression f c g).2).2.indentLevel = g.indentLevel
        rw [h2, h1]
      | some a =>
        have h3 := ihBlock a (codegen.generateBlockStatement f cons
          (codegen.generateExpression f c g).2).2 (by rw [h2, h1]; exact hg)
        show (codegen.generateBlockStatement f a
          (codegen.generateBlockStatement f cons
            (codegen.generateExpression f c g).2).2).2.indentLevel = g.indentLevel
        rw [h3, h2, h1]
    · intro i c pst b g hg
      simp only [codegen.generateForStatement]
      rcases e1 : (match i with
                   | some s => codegen.generateStatement f s g
                   | none => ("", g)) with ⟨is2, g1⟩
      have h1 : g1.indentLevel = g.indentLevel := by
        cases i with
        | some s =>
          have e1' : codegen.generateStatement f s g = (is2, g1) := e1
          have t := ihStmt s g hg
          rw [e1'] at t
          exact t
        | none =>
          have e1' : g = g1 := congrArg Prod.snd e1
          rw [← e1']
      simp only [e1]
      rcases e2 : (match c with
                   | some e => codegen.generateExpression f (some e) g1
                   | none => ("", g1)) with ⟨cs, g2⟩
      have h2 : g2.indentLevel = g1.indentLevel := by
        cases c with
        | some e =>
          have e2' : codegen.generateExpression f (some e) g1 = (cs, g2) := e2
          have t := ihExpr (some e) g1 (by rw [h1]; exact hg)
          rw [e2'] at t
          exact t
        | none =>
          have e2' : g1 = g2 := congrArg Prod.snd e2
          rw [← e2']
      simp only [e2]
      rcases e3 : (match pst with
                   | some s => codegen.generateStatement f s g2
                   | none => ("", g2)) with ⟨ps2, g3⟩
      have h3 : g3.indentLevel = g2.indentLevel := by
        cases pst with
        | some s =>
          have e3' : codegen.generateStatement f s g2 = (ps2, g3) := e3
          have t := ihStmt s g2 (by rw [h2, h1]; exact hg)
          rw [e3'] at t
          exact t
        | none =>
          have e3' : g2 = g3 := congrArg Prod.snd e3
          rw [← e3']
      simp only [e3]
      rcases e4 : codegen.generateBlockStatement f b g3 with ⟨bs, g4⟩
      have h4 : g4.indentLevel = g3.indentLevel := by
        have t := ihBlock b g3 (by rw [h3, h2, h1]; exact hg)
        rw [e4] at t
        exact t
      simp only [e4]
      show g4.indentLevel = g.indentLevel
      rw [h4, h3, h2, h1]
    · intro k v coll b g hg
      have h1 := ihExpr coll g hg
      have h2 := ihBlock b (codegen.generateExpression f coll g).2
        (by rw [h1]; exact hg)
      show (codegen.generateBlockStatement f b
        (codegen.generateExpression f coll g).2).2.indentLevel = g.indentLevel
      rw [h2, h1]
    · intro sd g hg
      rcases sd with ⟨tok, name, fields, pos⟩
      have h1 := ihFields fields (codegen.increaseIndent g) ""
        (by show (0 : Int) ≤ g.indentLevel + 1; omega)
      have h1' : (codegen.genFields f fields
          (codegen.increaseIndent g) "").2.indentLevel = g.indentLevel + 1 := h1
      show (codegen.decreaseIndent (codegen.genFields f fields
        (codegen.increaseIndent g) "").2).indentLevel = g.indentLevel
      unfold codegen.decreaseIndent
      rw [if_pos (by rw [h1']; omega)]
      show (codegen.genFields f fields
        (codegen.increaseIndent g) "").2.indentLevel - 1 = g.indentLevel
      rw [h1']
      omega
    · intro fs g acc hg
      cases fs with
      | nil => rfl
      | cons fld rest =>
        rcases fld with ⟨name, ty⟩
        have h1 := ihType ty g hg
        have h2 := ihFields rest (codegen.generateTypeExpression f ty g).2
          (acc ++ codegen.indent g ++ name ++ " " ++
            (codegen.generateTypeExpression f ty g).1 ++ "\n")
          (by rw [h1]; exact hg)
        show (codegen.genFields f rest (codegen.generateTypeExpression f ty g).2
          (acc ++ codegen.indent g ++ name ++ " " ++
            (codegen.generateTypeExpression f ty g).1 ++ "\n")).2.indentLevel = g.indentLevel
        rw [h2, h1]
    · intro b g hg
      rcases b with ⟨tok, stmts, pos⟩
      have h1 := ihStmts stmts (codegen.increaseIndent g) ""
        (by show (0 : Int) ≤ g.indentLevel + 1; omega)
      have h1' : (codegen.blockStmts f stmts
          (codegen.increaseIndent g) "").2.indentLevel = g.indentLevel + 1 := h1
      show (codegen.decreaseIndent (codegen.blockStmts f stmts
        (codegen.increaseIndent g) "").2).indentLevel = g.indentLevel
      unfold codegen.decreaseIndent
      rw [if_pos (by rw [h1']; omega)]
      show (codegen.blockStmts f stmts
        (codegen.increaseIndent g) "").2.indentLevel - 1 = g.indentLevel
      rw [h1']
      omega
    · intro ss g acc hg
      cases ss with
      | nil => rfl
      | cons s rest =>
        have h1 := ihStmt s g hg
        have h2 := ihStmts rest (codegen.generateStatement f s g).2
          (acc ++ codegen.indent g ++ (codegen.generateStatement f s g).1 ++ "\n")
          (by rw [h1]; exact hg)
        show (codegen.blockStmts f rest (codegen.generateStatement f s g).2
          (acc ++ codegen.indent g ++
            (codegen.generateStatement f s g).1 ++ "\n")).2.indentLevel = g.indentLevel
        rw [h2, h1]
    · intro e g hg
      cases e with
      | none => rfl
      | some e =>
        cases e with
        | identifier id => rfl
        | integerLiteral tok v pos => rfl
        | floatLiteral tok lit pos => rfl
        | stringLiteral tok v pos => rfl
        | booleanLiteral tok v pos => rfl
        | arrayLiteral tok elems pos => exact ihArr elems g hg
        | hashLiteral tok pairs pos => exact ihHash pairs g hg
        | unaryExpression tok op r pos => exact ihUn tok op r g hg
        | binaryExpression tok l op r pos => exact ihBin l op r g hg
        | assignmentExpression tok l op r pos => exact ihAsg l op r g hg
        | memberExpression tok o pr pos => exact ihMem o pr g hg
        | indexExpression tok l ix pos => exact ihIdx l ix g hg
        | callExpression tok fn args pos => exact ihCall fn args g hg
    · intro t g hg
      cases t with
      | identifierType tok n pos => rfl
      | arrayType tok el pos =>
        show (codegen.generateTypeExpression f el g).2.indentLevel = g.indentLevel
        exact ihType el g hg
      | mapType tok k v pos =>
        have h1 := ihType k g hg
        have h2 := ihType v (codegen.generateTypeExpression f k g).2
          (by rw [h1]; exact hg)
        show (codegen.generateTypeExpression f v
          (codegen.generateTypeExpression f k g).2).2.indentLevel = g.indentLevel
        rw [h2, h1]
      | structType sd => exact ihStruct sd g hg
    · intro es g hg
      show (codegen.genExprList f es g).2.indentLevel = g.indentLevel
      exact ihList es g hg
    · intro prs g hg
      show (codegen.genPairList f prs g).2.indentLevel = g.indentLevel
      exact ihPairs prs g hg
    · intro es g hg
      cases es with
      | nil => rfl
      | cons e rest =>
        have h1 := ihExpr e g hg
        have h2 := ihList rest (codegen.generateExpression f e g).2
          (by rw [h1]; exact hg)
        show (codegen.genExprList f rest
          (codegen.generateExpression f e g).2).2.indentLevel = g.indentLevel
        rw [h2, h1]
    · intro prs g hg
      cases prs with
      | nil => rfl
      | cons pr rest =>
        rcases pr with ⟨k, v⟩
        have h1 := ihExpr k g hg
        have h2 := ihExpr v (codegen.generateExpression f k g).2
          (by rw [h1]; exact hg)
        have h3 := ihPairs rest (codegen.generateExpression f v
          (codegen.generateExpression f k g).2).2 (by rw [h2, h1]; exact hg)
        show (codegen.genPairList f rest (codegen.generateExpression f v
          (codegen.generateExpression f k g).2).2).2.indentLevel = g.indentLevel
        rw [h3, h2, h1]
    · intro tok op r g hg
      have h1 := ihExpr r g hg
      cases h : (tok.typ == ast.INC || tok.typ == ast.DEC) with
      | true =>
        simp only [codegen.generateUnaryExpression, h]
        exact h1
      | false =>
        simp only [codegen.generateUnaryExpression, h]
        exact h1
    · intro l op r g hg
      have h1 := ihExpr l g hg
      have h2 := ihExpr r (codegen.generateExpression f l g).2
        (by rw [h1]; exact hg)
      show (codegen.generateExpression f r
        (codegen.generateExpression f l g).2).2.indentLevel = g.indentLevel
      rw [h2, h1]
    · intro l op r g hg
      have h1 := ihExpr l g hg
      have h2 := ihExpr r (codegen.generateExpression f l g).2
        (by rw [h1]; exact hg)
      show (codegen.generateExpression f r
        (codegen.generateExpression f l g).2).2.indentLevel = g.indentLevel
      rw [h2, h1]
    · intro o pr g hg
      have h1 := ihExpr o g hg
      have h2 := ihExpr (some (.identifier pr))
        (codegen.generateExpression f o g).2 (by rw [h1]; exact hg)
      show (codegen.generateExpression f (some (.identifier pr))
        (codegen.generateExpression f o g).2).2.indentLevel = g.indentLevel
      rw [h2, h1]
    · intro l ix g hg
      have h1 := ihExpr l g hg
      have h2 := ihExpr ix (codegen.generateExpression f l g).2
        (by rw [h1]; exact hg)
      show (codegen.generateExpression f ix
        (codegen.generateExpression f l g).2).2.indentLevel = g.indentLevel
      rw [h2, h1]
    · intro fn args g hg
      have h1 := ihList args g hg
      have h2 := ihExpr fn (codegen.genExprList f args g).2
        (by rw [h1]; exact hg)
      show (codegen.generateExpression f fn
        (codegen.genExprList f args g).2).2.indentLevel = g.indentLevel
      rw [h2, h1]

/-- The top-level `Generate` loop also preserves a non-negative
indentLevel. -/
theorem codegen_generate_loop_level : ∀ (fuel : Nat) (ss : List ast.Statement)
    (g : codegen.Gen) (acc : String), 0 ≤ g.indentLevel →
    (codegen.Generate.loop fuel ss g acc).2.indentLevel = g.indentLevel := by
  intro fuel
  induction fuel with
  | zero =>
    intro ss g acc hg
    cases ss <;> rfl
  | succ f IH =>
    intro ss g acc hg
    cases ss with
    | nil => rfl
    | cons s rest =>
      have h1 := (codegen_indent_preserved f).1 s g hg
      have h2 := IH rest (codegen.generateStatement f s g).2
        (if (codegen.generateStatement f s g).1 != "" then
          acc ++ (codegen.generateStatement f s g).1 ++ "\n" else acc)
        (by rw [h1]; exact hg)
      show (codegen.Generate.loop f rest (codegen.generateStatement f s g).2
        (if (codegen.generateStatement f s g).1 != "" then
          acc ++ (codegen.generateStatement f s g).1 ++ "\n" else acc)).2.indentLevel =
        g.indentLevel
      rw [h2, h1]

/-- C10: the generator's indentation discipline.  `decreaseIndent` is a
no-op at level zero; `increaseIndent`/`decreaseIndent` keep a non-negative
level non-negative; `generateBlockStatement` (and the statement generator
as a whole) returns with `indentLevel` equal to its value on entry
whenever that value is non-negative; and a whole-program `Generate` run,
which starts from level 0, ends at level 0 — so every statement line's
tab prefix `indent` is computed from a well-defined non-negative level. -/
theorem C10_indentation_invariant :
    (∀ g : codegen.Gen, g.indentLevel = 0 → codegen.decreaseIndent g = g) ∧
    (∀ g : codegen.Gen, 0 ≤ g.indentLevel →
      0 ≤ (codegen.increaseIndent g).indentLevel ∧
      0 ≤ (codegen.decreaseIndent g).indentLevel) ∧
    (∀ (fuel : Nat) (b : ast.BlockStatement) (g : codegen.Gen),
      0 ≤ g.indentLevel →
      (codegen.generateBlockStatement fuel b g).2.indentLevel = g.indentLevel) ∧
    (∀ (fuel : Nat) (s : ast.Statement) (g : codegen.Gen), 0 ≤ g.indentLevel →
      (codegen.generateStatement fuel s g).2.indentLevel = g.indentLevel) ∧
    (∀ (fuel : Nat) (prog : ast.Program),
      (codegen.Generate fuel prog).2.indentLevel = 0) := by
  refine ⟨?_, ?_, ?_, ?_, ?_⟩
  · intro g h
    unfold codegen.decreaseIndent
    rw [if_neg (by omega)]
  · intro g h
    constructor
    · show (0 : Int) ≤ g.indentLevel + 1
      omega
    · unfold codegen.decreaseIndent
      split
      · show (0 : Int) ≤ g.indentLevel - 1
        omega
      · exact h
  · intro fuel b g hg
    exact (codegen_indent_preserved fuel).2.2.2.2.2.2.2.2.2.2.1 b g hg
  · intro fuel s g hg
    exact (codegen_indent_preserved fuel).1 s g hg
  · intro fuel prog
    exact codegen_generate_loop_level fuel prog.statements codegen.initGen ""
      (by decide)
